import Mathlib

/-
Verification of the PharmaScan barcode engine (app.js) and the
UnifiedBarcodeParser (enhanced_pharmacy_app.js) against the natural
language specification. The JavaScript code is shallowly embedded over
List Char: strings become character lists, regular-expression searches
become explicit left-to-right scans with the same match semantics, and
the positional while-loop becomes a fuel-indexed recursion whose fuel is
the length of the remaining input (the loop advances at least one
position per iteration, so this fuel is always sufficient).
-/

set_option maxRecDepth 8000

-- ════════════════════════════════════════
-- Generic JavaScript string primitives
-- ════════════════════════════════════════

/-- ASCII whitespace recognised by the JavaScript trim function (the
full JS set also has exotic Unicode spaces, which never occur in the
barcode inputs considered here). -/
def jsWhitespace (c : Char) : Bool :=
  c = ' ' || c = '\t' || c = '\n' || c = '\r' || c = '\x0b' || c = '\x0c'

/-- Drop trailing characters satisfying p, keeping the front intact. -/
def rdropWhile (p : Char → Bool) (l : List Char) : List Char :=
  (l.reverse.dropWhile p).reverse

/-- Model of the JavaScript String.prototype.trim method. -/
def jsTrim (l : List Char) : List Char :=
  rdropWhile jsWhitespace (l.dropWhile jsWhitespace)

/-- Model of the replace of the regex class [CR LF TAB] by the empty
string, used by GS1.parse on its input. -/
def stripCRLFTab (l : List Char) : List Char :=
  l.filter (fun c => !(c = '\r' || c = '\n' || c = '\t'))

/-- The input cleaning done by GS1.parse in app.js, line 106:
code = raw.trim().replace of CR, LF and TAB by nothing. -/
def cleanInput (raw : List Char) : List Char :=
  stripCRLFTab (jsTrim raw)

/-- Model of padStart(14, zero) from app.js lines 114 and 180. -/
def padStart14 (l : List Char) : List Char :=
  List.replicate (14 - l.length) '0' ++ l

/-- Printable ASCII test: the regex class from x20 to x7E used to clean
batch and serial values in app.js lines 124, 125, 134, 135. -/
def printableB (c : Char) : Bool :=
  decide (0x20 ≤ c.toNat) && decide (c.toNat ≤ 0x7E)

/-- The batch and serial post-processing of app.js: keep printable
ASCII, trim, then take the first 20 characters. -/
def clean20 (l : List Char) : List Char :=
  (jsTrim (l.filter printableB)).take 20

/-- Value of a digit string, most significant digit first. -/
def natOfDigits (l : List Char) : Nat :=
  l.foldl (fun n c => 10 * n + (c.toNat - 48)) 0

/-- Longest digit prefix of a string, absent when there is none. -/
def digitsPrefix (l : List Char) : Option Nat :=
  let d := l.takeWhile Char.isDigit
  if d = [] then none else some (natOfDigits d)

/-- Model of the JavaScript parseInt on decimal input: skip leading
whitespace, read an optional sign and then a digit prefix; none models
the NaN result. Hexadecimal prefixes are not modelled since no call
site in the sources can receive one. -/
def jsParseInt (l : List Char) : Option Int :=
  match l.dropWhile jsWhitespace with
  | '-' :: rest => (digitsPrefix rest).map (fun n => -(n : Int))
  | '+' :: rest => (digitsPrefix rest).map (fun n => (n : Int))
  | l2 => (digitsPrefix l2).map (fun n => (n : Int))

/-- Decimal rendering of a JavaScript number that is either an integer
or NaN, as interpolated into template strings. -/
def numStr : Option Int → List Char
  | some n => (toString n).toList
  | none => ['N', 'a', 'N']

/-- Model of String(n).padStart(2, zero). -/
def pad2 (o : Option Int) : List Char :=
  let s := numStr o
  List.replicate (2 - s.length) '0' ++ s

-- ════════════════════════════════════════
-- Calendar arithmetic for the JS Date uses
-- ════════════════════════════════════════

/-- Gregorian leap year rule, as used by the JavaScript Date object. -/
def isLeapZ (y : Int) : Bool :=
  (decide (Int.emod y 4 = 0) && decide (¬ Int.emod y 100 = 0)) ||
    decide (Int.emod y 400 = 0)

/-- Number of days of calendar month m of year y. -/
def daysInMonthZ (y m : Int) : Int :=
  if m = 2 then (if isLeapZ y then 29 else 28)
  else if m = 4 ∨ m = 6 ∨ m = 9 ∨ m = 11 then 30
  else 31

/-- Model of new Date(yr, mm, 0).getDate() from app.js line 154: the JS
Date constructor takes mm as a zero-based month index with overflow
normalisation, and day 0 backs up to the last day of the previous
month, so the result is the length of linear month yr*12 + mm - 1. All
reachable arguments make that linear index positive, where Euclidean
and floor division agree. -/
def jsLastDay (yr mm : Int) : Int :=
  let k := yr * 12 + mm - 1
  daysInMonthZ (k / 12) (k % 12 + 1)

-- ════════════════════════════════════════
-- GS1 parser of app.js
-- ════════════════════════════════════════

/-- The ASCII group separator 0x1D used by GS1-128. -/
def gsChar : Char := '\x1D'

/-- Result record of GS1.parse in app.js, line 103. -/
structure GS1Result where
  raw : List Char
  gtin : List Char
  expiry : List Char
  expiryISO : List Char
  expiryDisplay : List Char
  batch : List Char
  serial : List Char
  qty : Nat
  isGS1 : Bool
deriving DecidableEq, Repr

/-- The freshly initialised result object of GS1.parse. -/
def emptyR (raw : List Char) : GS1Result :=
  ⟨raw, [], [], [], [], [], [], 1, false⟩

/-- The day-of-month fix of app.js line 154: a day value of zero is
replaced by the JS Date computation of the last day of the stated
month; NaN propagates. -/
def jsDayFix (yr mm dd : Option Int) : Option Int :=
  match dd with
  | some d =>
      if d = 0 then
        match yr, mm with
        | some y, some m => some (jsLastDay y m)
        | _, _ => none
      else some d
  | none => none

/-- The expiryISO template string of app.js line 155. -/
def expISO (tok : List Char) : List Char :=
  let yy := jsParseInt (tok.take 2)
  let mm := jsParseInt ((tok.drop 2).take 2)
  let dd := jsParseInt ((tok.drop 4).take 2)
  let yr := Option.map (fun v => 2000 + v) yy
  numStr yr ++ ['-'] ++ pad2 mm ++ ['-'] ++ pad2 (jsDayFix yr mm dd)

/-- The expiryDisplay template string of app.js line 156. -/
def expDisp (tok : List Char) : List Char :=
  let yy := jsParseInt (tok.take 2)
  let mm := jsParseInt ((tok.drop 2).take 2)
  let dd := jsParseInt ((tok.drop 4).take 2)
  let yr := Option.map (fun v => 2000 + v) yy
  pad2 (jsDayFix yr mm dd) ++ ['/'] ++ pad2 mm ++ ['/'] ++ numStr yr

/-- Model of the private method GS1._expiry (app.js lines 148 to 157):
on a six character token it records the raw token and derives the ISO
and display strings; otherwise it leaves the record unchanged. -/
def expiryUpd (r : GS1Result) (tok : List Char) : GS1Result :=
  if tok.length = 6 then
    { r with expiry := tok, expiryISO := expISO tok, expiryDisplay := expDisp tok }
  else r

/-- Test for code.includes of an opening parenthesis, app.js line 108. -/
def hasParensB (l : List Char) : Bool := decide ('(' ∈ l)

/-- Test of the regex anchored at the start: 01 followed by 14 digits,
app.js line 109. -/
def hasRawGS1B (l : List Char) : Bool :=
  ['0', '1'].isPrefixOf l && decide (16 ≤ l.length) &&
    ((l.drop 2).take 14).all Char.isDigit

/-- Left-to-right search for the regex: open paren, the two tag digits
a and b, close paren, then exactly n digits captured. Mirrors the
String.match calls of app.js lines 122 and 123: at each position the
pattern either matches, yielding the n digit capture, or the scan moves
one character to the right. -/
def scanFixed (a b : Char) (n : Nat) : List Char → Option (List Char)
  | [] => none
  | c :: rest =>
      if ((c :: rest).take 4 = ['(', a, b, ')'] ∧
          (((c :: rest).drop 4).take n).length = n) ∧
          (((c :: rest).drop 4).take n).all Char.isDigit = true then
        some (((c :: rest).drop 4).take n)
      else scanFixed a b n rest

/-- Left-to-right search for the regex: open paren, tag digits a and b,
close paren, then one or more characters other than an open paren,
captured greedily. Mirrors app.js lines 124 and 125. -/
def scanVar (a b : Char) : List Char → Option (List Char)
  | [] => none
  | c :: rest =>
      if (c :: rest).take 4 = ['(', a, b, ')'] ∧
          ((c :: rest).drop 4).takeWhile (fun x => x != '(') ≠ [] then
        some (((c :: rest).drop 4).takeWhile (fun x => x != '('))
      else scanVar a b rest

/-- The positional while-loop of GS1.parse (app.js lines 128 to 137),
with fuel bounding the number of iterations; every iteration consumes
at least one character, so fuel equal to the length of the input is
enough. The cursor arithmetic substring(pos+2, pos+16) and friends
becomes drop and take on the current suffix. -/
def parseRawAux : Nat → GS1Result → List Char → GS1Result
  | 0, r, _ => r
  | _ + 1, r, [] => r
  | f + 1, r, c :: rest =>
      if c = gsChar then parseRawAux f r rest
      else if (c :: rest).take 2 = ['0', '1'] then
        parseRawAux f { r with gtin := ((c :: rest).drop 2).take 14 } ((c :: rest).drop 16)
      else if (c :: rest).take 2 = ['1', '7'] then
        parseRawAux f (expiryUpd r (((c :: rest).drop 2).take 6)) ((c :: rest).drop 8)
      else if (c :: rest).take 2 = ['1', '0'] then
        parseRawAux f
          { r with batch := clean20 (((c :: rest).drop 2).takeWhile (fun x => x != gsChar)) }
          (((c :: rest).drop 2).dropWhile (fun x => x != gsChar))
      else if (c :: rest).take 2 = ['2', '1'] then
        parseRawAux f
          { r with serial := clean20 (((c :: rest).drop 2).takeWhile (fun x => x != gsChar)) }
          (((c :: rest).drop 2).dropWhile (fun x => x != gsChar))
      else parseRawAux f r rest

/-- Model of GS1.parse from app.js lines 102 to 140, over character
lists. The falsy check on the raw argument is the emptiness test; the
string typeof test is enforced by typing. -/
def gs1ParseL (raw : List Char) : GS1Result :=
  if raw = [] then emptyR raw
  else
    let code := cleanInput raw
    if hasParensB code = false ∧ hasRawGS1B code = false then
      let d := code.filter Char.isDigit
      if 8 ≤ d.length ∧ d.length ≤ 14 then { emptyR raw with gtin := padStart14 d }
      else emptyR raw
    else
      let r1 := { emptyR raw with isGS1 := true }
      if hasParensB code = true then
        let r2 := match scanFixed '0' '1' 14 code with
          | some g => { r1 with gtin := g }
          | none => r1
        let r3 := match scanFixed '1' '7' 6 code with
          | some e => expiryUpd r2 e
          | none => r2
        let r4 := match scanVar '1' '0' code with
          | some b => { r3 with batch := clean20 b }
          | none => r3
        match scanVar '2' '1' code with
        | some s => { r4 with serial := clean20 s }
        | none => r4
      else parseRawAux code.length r1 code

/-- GS1.parse on an ordinary string. -/
def gs1Parse (s : String) : GS1Result := gs1ParseL s.toList

-- ════════════════════════════════════════
-- Expiry classifier, GS1.status of app.js
-- ════════════════════════════════════════

/-- Freshness states returned by GS1.status in app.js lines 159
to 167. -/
inductive ExpiryStatus
  | unknown
  | expired
  | expiring
  | ok
deriving DecidableEq, Repr

/-- Nat form of the leap year test for rata die arithmetic. -/
def isLeapN (y : Nat) : Bool :=
  (decide (y % 4 = 0) && decide (¬ y % 100 = 0)) || decide (y % 400 = 0)

/-- Days in the months strictly before month m of a common year. -/
def monthPrefixDays (m : Nat) : Nat :=
  match m with
  | 1 => 0 | 2 => 31 | 3 => 59 | 4 => 90 | 5 => 120 | 6 => 151
  | 7 => 181 | 8 => 212 | 9 => 243 | 10 => 273 | 11 => 304 | 12 => 334
  | _ => 365

/-- Day number of the Gregorian date y-m-d, counted from an epoch of
day one equal to January first of year one. Midnight truncation of the
spec is inherent: a date triple carries no time of day, so the day
difference computed from these numbers is exactly the floor of the
millisecond difference over 86400000 computed in app.js line 163. -/
def rataDie (y m d : Nat) : Nat :=
  365 * (y - 1) + (y - 1) / 4 - (y - 1) / 100 + (y - 1) / 400 +
    monthPrefixDays m + (if 3 ≤ m ∧ isLeapN y = true then 1 else 0) + d

/-- Model of GS1.status (app.js lines 159 to 167). The absent date is
the falsy isoDate; the clock read of the today value and the constant
CFG.SOON_DAYS become explicit parameters, matching the classifier
contract of the spec. -/
def statusOf (dOpt : Option (Nat × Nat × Nat)) (today : Nat × Nat × Nat)
    (soonDays : Int) : ExpiryStatus :=
  match dOpt with
  | none => ExpiryStatus.unknown
  | some (y, m, d) =>
      let diff : Int := (rataDie y m d : Int) -
        (rataDie today.1 today.2.1 today.2.2 : Int)
      if diff < 0 then ExpiryStatus.expired
      else if diff ≤ soonDays then ExpiryStatus.expiring
      else ExpiryStatus.ok

/-- The CFG.SOON_DAYS constant of app.js line 13. -/
def cfgSoonDays : Int := 90

-- ════════════════════════════════════════
-- UnifiedBarcodeParser of enhanced_pharmacy_app.js
-- ════════════════════════════════════════

/-- Format tags returned by detectFormat. The constructor names map to
the source strings GS1_PARENTHESIZED, GS1_FULL, GTIN14, EAN13,
LEGACY12, EAN8 and UNKNOWN in order. -/
inductive UFormat
  | gs1Parenthesized
  | gs1Full
  | gtin14
  | ean13
  | legacy12
  | ean8
  | unknownFmt
deriving DecidableEq, Repr

/-- Model of String.prototype.includes for a fixed pattern. -/
def containsSubB (pat : List Char) : List Char → Bool
  | [] => pat.isEmpty
  | c :: rest => pat.isPrefixOf (c :: rest) || containsSubB pat rest

/-- Model of UnifiedBarcodeParser.detectFormat, enhanced app lines 22
to 44. Note that the three AI token tests run over the whole barcode
string, not only over the part after the GTIN body. -/
def detectFormat (l : List Char) : UFormat :=
  if containsSubB ['(', '0', '1', ')'] l then UFormat.gs1Parenthesized
  else if ['0', '1'].isPrefixOf l && decide (16 < l.length) &&
      (containsSubB ['1', '7'] l || containsSubB ['2', '1'] l ||
        containsSubB ['1', '0'] l) then UFormat.gs1Full
  else
    let cleaned := l.filter Char.isDigit
    if cleaned.length = 14 then UFormat.gtin14
    else if cleaned.length = 13 then UFormat.ean13
    else if cleaned.length = 12 then UFormat.legacy12
    else if cleaned.length = 8 then UFormat.ean8
    else UFormat.unknownFmt

/-- detectFormat on an ordinary string. -/
def detectFormatS (s : String) : UFormat := detectFormat s.toList

/-- Result object of the UnifiedBarcodeParser parse methods; absent
JavaScript fields and null values are both modelled by none. -/
structure EParsed where
  format : UFormat
  raw : List Char
  gtin : Option (List Char)
  expiryRaw : Option (List Char)
  expiry : Option (List Char)
  batch : Option (List Char)
  serial : Option (List Char)
  productionDateRaw : Option (List Char)
  productionDate : Option (List Char)
  code : Option (List Char)
  ean13 : Option (List Char)
  legacy : Option (List Char)
deriving DecidableEq, Repr

/-- Model of UnifiedBarcodeParser.formatExpiry, enhanced app lines 184
to 195: the six digit token is resliced verbatim into the 20YY-MM-DD
template, with no day zero handling and no range check. -/
def formatExpiry (tok : List Char) : Option (List Char) :=
  if tok.length = 6 then
    some (['2', '0'] ++ tok.take 2 ++ ['-'] ++ (tok.drop 2).take 2 ++ ['-'] ++ tok.drop 4)
  else none

/-- Model of UnifiedBarcodeParser.parseParenthesized, enhanced app
lines 49 to 82: the same regex searches as app.js, but batch and
serial are only whitespace trimmed, and the production date AI 11 is
also extracted. -/
def eParseParenL (l : List Char) : EParsed :=
  ⟨UFormat.gs1Parenthesized, l,
    scanFixed '0' '1' 14 l,
    scanFixed '1' '7' 6 l,
    (scanFixed '1' '7' 6 l).bind formatExpiry,
    (scanVar '1' '0' l).map jsTrim,
    (scanVar '2' '1' l).map jsTrim,
    scanFixed '1' '1' 6 l,
    (scanFixed '1' '1' 6 l).bind formatExpiry,
    none, none, none⟩

/-- parseParenthesized on an ordinary string. -/
def eParseParen (s : String) : EParsed := eParseParenL s.toList

/-- Model of UnifiedBarcodeParser.parseSimple, enhanced app lines 128
to 139: the gtin field is the cleaned digits only for the GTIN14
format and null otherwise; no zero padding happens anywhere. -/
def parseSimple (l : List Char) (fmt : UFormat) : EParsed :=
  ⟨fmt, l,
    if fmt = UFormat.gtin14 then some (l.filter Char.isDigit) else none,
    none, none, none, none, none, none,
    some (l.filter Char.isDigit),
    if fmt = UFormat.ean13 then some (l.filter Char.isDigit) else none,
    if fmt = UFormat.legacy12 then some (l.filter Char.isDigit) else none⟩

-- ════════════════════════════════════════
-- Master catalog index of app.js
-- ════════════════════════════════════════

/-- One row of the master catalog, app.js Master.build input. -/
structure MEntry where
  barcode : List Char
  name : List Char
  rms : List Char
deriving DecidableEq, Repr

/-- Result of Master.find, app.js lines 188 to 195; the how field holds
the source strings EXACT, PARTIAL or NONE. -/
structure MatchResult where
  name : List Char
  rms : List Char
  how : List Char
deriving DecidableEq, Repr

/-- Association list lookup modelling Map.get and Map.has; insertion
order is preserved, so the first binding of a key wins. -/
def alookup (k : List Char) : List (List Char × List Char) → Option (List Char)
  | [] => none
  | (k2, v) :: rest => if k2 = k then some v else alookup k rest

/-- Model of slice(-8): the last eight characters, or the whole string
when it is shorter. -/
def takeLastN (n : Nat) (l : List Char) : List Char :=
  l.drop (l.length - n)

/-- The up to four registration keys of one catalog entry, app.js line
181: raw stripped digits, 14 digit padded form, that form with one
leading zero stripped when it starts with zero, and the last eight
digits; empty strings are filtered out as falsy. -/
def entryKeys (e : MEntry) : List (List Char) :=
  let bc := e.barcode.filter Char.isDigit
  let g14 := padStart14 bc
  ([bc, g14, if g14.headD ' ' = '0' then g14.drop 1 else [], takeLastN 8 bc]).filter
    (fun k => decide (k ≠ []))

/-- Register a value under each key that is not yet bound, preserving
the first binding, as the Map.has guard of app.js line 182 does. -/
def addKeys (idx : List (List Char × List Char)) (ks : List (List Char))
    (v : List Char) : List (List Char × List Char) :=
  ks.foldl (fun acc k => if (alookup k acc).isSome then acc else acc ++ [(k, v)]) idx

/-- The Master.build loop over the name map, app.js lines 174 to 186:
entries whose stripped barcode has fewer than eight digits are
skipped. -/
def buildGo (idx : List (List Char × List Char)) : List MEntry → List (List Char × List Char)
  | [] => idx
  | e :: rest =>
      if (e.barcode.filter Char.isDigit).length < 8 then buildGo idx rest
      else buildGo (addKeys idx (entryKeys e) e.name) rest

/-- The name index masterIndex built by Master.build. -/
def buildIndex (data : List MEntry) : List (List Char × List Char) :=
  buildGo [] data

/-- The Master.build loop over the rms map: a key is bound only by
entries whose rms value is truthy, app.js line 183. -/
def buildRMSGo (idx : List (List Char × List Char)) : List MEntry → List (List Char × List Char)
  | [] => idx
  | e :: rest =>
      if (e.barcode.filter Char.isDigit).length < 8 then buildRMSGo idx rest
      else buildRMSGo (if e.rms = [] then idx else addKeys idx (entryKeys e) e.rms) rest

/-- The rms index masterRMS built by Master.build. -/
def buildRMS (data : List MEntry) : List (List Char × List Char) :=
  buildRMSGo [] data

/-- The candidate loop of Master.find, app.js lines 190 to 193. -/
def masterFindLoop (idx rms : List (List Char × List Char)) (g : List Char) :
    List (List Char) → MatchResult
  | [] => ⟨[], [], "NONE".toList⟩
  | c :: rest =>
      match alookup c idx with
      | some n =>
          ⟨n, (alookup c rms).getD [],
            if c = g then "EXACT".toList else "PARTIAL".toList⟩
      | none => masterFindLoop idx rms g rest

/-- Model of Master.find, app.js lines 188 to 195. -/
def masterFind (idx rms : List (List Char × List Char)) (g : List Char) : MatchResult :=
  if g = [] then ⟨[], [], "NONE".toList⟩
  else masterFindLoop idx rms g
    (([g, if g.headD ' ' = '0' then g.drop 1 else [], takeLastN 8 g]).filter
      (fun k => decide (k ≠ [])))

-- ════════════════════════════════════════
-- OCR text normalisation of app.js
-- ════════════════════════════════════════

/-- ASCII model of String.prototype.toUpperCase: the OCR claims only
concern ASCII characters, on which this is exact. -/
def jsToUpper (c : Char) : Char :=
  if 'a' ≤ c ∧ c ≤ 'z' then Char.ofNat (c.toNat - 32) else c

/-- The replace of the regex class [vertical bar, capital I, small l]
by the digit one, app.js line 353. -/
def ocrDigit1 (c : Char) : Char :=
  if c = '|' ∨ c = 'I' ∨ c = 'l' then '1' else c

/-- The replace of the letter O by the digit zero, app.js line 353. -/
def ocrDigit0 (c : Char) : Char :=
  if c = 'O' then '0' else c

/-- The OCR text normalisation of extractDateFromOCR, app.js line 353:
uppercase first, then the two character substitutions, in that order.
The date patterns of lines 357 to 372 are matched against this
corrected text. -/
def ocrNormalize (l : List Char) : List Char :=
  ((l.map jsToUpper).map ocrDigit1).map ocrDigit0

/-- The per-character action of ocrNormalize. -/
def ocrFix (c : Char) : Char :=
  ocrDigit0 (ocrDigit1 (jsToUpper c))

-- ════════════════════════════════════════
-- Encoders used by the equivalence claim
-- ════════════════════════════════════════

/-- Parenthesised GS1 encoding of a GTIN, expiry, batch and serial, in
the AI order 01, 17, 10, 21 used by the round-trip sentence of the
spec. -/
def parenEncode (G E B S : List Char) : List Char :=
  ['(', '0', '1', ')'] ++ (G ++ (['(', '1', '7', ')'] ++ (E ++
    (['(', '1', '0', ')'] ++ (B ++ (['(', '2', '1', ')'] ++ S))))))

/-- Positional GS1 encoding of the same fields, with the group
separator 0x1D terminating the variable length batch field. -/
def posEncode (G E B S : List Char) : List Char :=
  ['0', '1'] ++ (G ++ (['1', '7'] ++ (E ++ (['1', '0'] ++
    (B ++ (gsChar :: (['2', '1'] ++ S)))))))

-- ════════════════════════════════════════
-- Derived catalog notions used in theorem statements
-- ════════════════════════════════════════

/-- The first catalog entry, in list order, that is retained by the
build (at least eight stripped digits) and registers the given key. -/
def firstHit (k : List Char) (data : List MEntry) : Option MEntry :=
  data.find? (fun e => decide (8 ≤ (e.barcode.filter Char.isDigit).length) &&
    decide (k ∈ entryKeys e))

/-- The first retained catalog entry with a nonempty rms value that
registers the given key. -/
def firstHitRMS (k : List Char) (data : List MEntry) : Option MEntry :=
  data.find? (fun e => decide (8 ≤ (e.barcode.filter Char.isDigit).length) &&
    decide (k ∈ entryKeys e) && decide (e.rms ≠ []))

/-- The one entry catalog of the Zyrtec example in the spec. -/
def zCatalog : List MEntry := [⟨"6291107439358".toList, "Zyrtec".toList, []⟩]

/-- The name index built from the Zyrtec catalog. -/
def zidx : List (List Char × List Char) := buildIndex zCatalog

/-- The rms index built from the Zyrtec catalog. -/
def zrms : List (List Char × List Char) := buildRMS zCatalog

-- ════════════════════════════════════════
-- Spec-side renderers used in theorem statements
-- ════════════════════════════════════════

/-- Two digit zero padded decimal rendering of an integer. -/
def pad2Z (n : Int) : List Char :=
  List.replicate (2 - (toString n).toList.length) '0' ++ (toString n).toList

/-- The ISO date template year-month-day with two digit padding of the
month and day components, as produced by app.js line 155. -/
def isoRenderZ (y m d : Int) : List Char :=
  (toString y).toList ++ ['-'] ++ pad2Z m ++ ['-'] ++ pad2Z d

-- ════════════════════════════════════════
-- Claim C1
-- ════════════════════════════════════════

/-- Claim C1: parsing the parenthesised input
(01)00012345678905(17)260630(10)BATCH1(21)SER99 yields the gtin
00012345678905, the raw expiry token 260630, the calendar date
2026-06-30, batch BATCH1 and serial SER99, in both the PharmaScan
parser and the UnifiedBarcodeParser. -/
theorem claim_C1 :
    (gs1Parse "(01)00012345678905(17)260630(10)BATCH1(21)SER99").gtin =
        "00012345678905".toList ∧
    (gs1Parse "(01)00012345678905(17)260630(10)BATCH1(21)SER99").expiry =
        "260630".toList ∧
    (gs1Parse "(01)00012345678905(17)260630(10)BATCH1(21)SER99").expiryISO =
        "2026-06-30".toList ∧
    (gs1Parse "(01)00012345678905(17)260630(10)BATCH1(21)SER99").batch =
        "BATCH1".toList ∧
    (gs1Parse "(01)00012345678905(17)260630(10)BATCH1(21)SER99").serial =
        "SER99".toList ∧
    (gs1Parse "(01)00012345678905(17)260630(10)BATCH1(21)SER99").isGS1 = true ∧
    detectFormatS "(01)00012345678905(17)260630(10)BATCH1(21)SER99" =
        UFormat.gs1Parenthesized ∧
    (eParseParen "(01)00012345678905(17)260630(10)BATCH1(21)SER99").gtin =
        some "00012345678905".toList ∧
    (eParseParen "(01)00012345678905(17)260630(10)BATCH1(21)SER99").expiryRaw =
        some "260630".toList ∧
    (eParseParen "(01)00012345678905(17)260630(10)BATCH1(21)SER99").expiry =
        some "2026-06-30".toList ∧
    (eParseParen "(01)00012345678905(17)260630(10)BATCH1(21)SER99").batch =
        some "BATCH1".toList ∧
    (eParseParen "(01)00012345678905(17)260630(10)BATCH1(21)SER99").serial =
        some "SER99".toList := by
  decide

-- ════════════════════════════════════════
-- Claim C9
-- ════════════════════════════════════════

/-- Claim C9: the expiry classifier maps an absent date to unknown, a
negative whole-day difference to expired, a difference between zero
and the threshold inclusive to expiring, and a larger difference to
ok; in particular with today 2026-01-01 and a ninety day threshold,
2025-12-31 is expired, 2026-03-01 is expiring, 2027-01-01 is ok and an
absent date is unknown. -/
theorem claim_C9 :
    (∀ (t : Nat × Nat × Nat) (s : Int), statusOf none t s = ExpiryStatus.unknown) ∧
    (∀ (y m d : Nat) (t : Nat × Nat × Nat) (s : Int),
      (rataDie y m d : Int) - (rataDie t.1 t.2.1 t.2.2 : Int) < 0 →
      statusOf (some (y, m, d)) t s = ExpiryStatus.expired) ∧
    (∀ (y m d : Nat) (t : Nat × Nat × Nat) (s : Int),
      0 ≤ (rataDie y m d : Int) - (rataDie t.1 t.2.1 t.2.2 : Int) →
      (rataDie y m d : Int) - (rataDie t.1 t.2.1 t.2.2 : Int) ≤ s →
      statusOf (some (y, m, d)) t s = ExpiryStatus.expiring) ∧
    (∀ (y m d : Nat) (t : Nat × Nat × Nat) (s : Int),
      0 ≤ (rataDie y m d : Int) - (rataDie t.1 t.2.1 t.2.2 : Int) →
      s < (rataDie y m d : Int) - (rataDie t.1 t.2.1 t.2.2 : Int) →
      statusOf (some (y, m, d)) t s = ExpiryStatus.ok) ∧
    statusOf (some (2025, 12, 31)) (2026, 1, 1) cfgSoonDays = ExpiryStatus.expired ∧
    statusOf (some (2026, 3, 1)) (2026, 1, 1) cfgSoonDays = ExpiryStatus.expiring ∧
    statusOf (some (2027, 1, 1)) (2026, 1, 1) cfgSoonDays = ExpiryStatus.ok ∧
    statusOf none (2026, 1, 1) cfgSoonDays = ExpiryStatus.unknown := by
  refine ⟨fun t s => rfl, ?_, ?_, ?_, by decide, by decide, by decide, rfl⟩
  · intro y m d t s h
    simp only [statusOf]
    rw [if_pos h]
  · intro y m d t s h1 h2
    simp only [statusOf]
    rw [if_neg (by omega), if_pos h2]
  · intro y m d t s h0 h
    simp only [statusOf]
    rw [if_neg (by omega), if_neg (by omega)]

/-- Witness for claim C9 at the expiring example of the spec. -/
theorem claim_C9_witness :
    ((0 : Int) ≤ (rataDie 2026 3 1 : Int) - (rataDie 2026 1 1 : Int) ∧
      (rataDie 2026 3 1 : Int) - (rataDie 2026 1 1 : Int) ≤ 90) ∧
    statusOf (some (2026, 3, 1)) (2026, 1, 1) 90 = ExpiryStatus.expiring :=
  ⟨⟨by decide, by decide⟩,
    claim_C9.2.2.1 2026 3 1 (2026, 1, 1) 90 (by decide) (by decide)⟩

-- ════════════════════════════════════════
-- Claim C10
-- ════════════════════════════════════════

/-- Counterexample for claim C10: the OCR normalisation maps a small
letter l to capital L, not to the digit one, because the substitution
regex runs after the uppercase conversion. -/
theorem claim_C10_cex : ocrNormalize ['l'] = ['L'] ∧ (['L'] : List Char) ≠ ['1'] := by
  decide

/-- Claim C10 amended: the OCR normalisation uppercases the text first
and then substitutes characters, so the vertical bar and capital I map
to the digit one, small i maps to one through its uppercase form,
capital and small o map to the digit zero, but small l maps to capital
L rather than to one; every character outside the lowercase range that
is not a vertical bar, capital I or capital O is left unchanged, and
the whole normalisation is the character map applied pointwise to the
text against which the date patterns are then matched. -/
theorem claim_C10 :
    ocrFix '|' = '1' ∧ ocrFix 'I' = '1' ∧ ocrFix 'i' = '1' ∧
    ocrFix 'O' = '0' ∧ ocrFix 'o' = '0' ∧ ocrFix 'l' = 'L' ∧
    (∀ c : Char, ¬('a' ≤ c ∧ c ≤ 'z') → c ≠ '|' → c ≠ 'I' → c ≠ 'O' →
      ocrFix c = c) ∧
    (∀ l : List Char, ocrNormalize l = l.map ocrFix) := by
  refine ⟨by decide, by decide, by decide, by decide, by decide, by decide, ?_, ?_⟩
  · intro c h h1 h2 h3
    have hl : c ≠ 'l' := by
      intro he
      exact h (by rw [he]; exact ⟨by decide, by decide⟩)
    simp [ocrFix, jsToUpper, ocrDigit1, ocrDigit0, h, h1, h2, h3, hl]
  · intro l
    simp only [ocrNormalize, List.map_map]
    rfl

/-- Witness for claim C10 at the unchanged character Z. -/
theorem claim_C10_witness :
    (¬('a' ≤ 'Z' ∧ 'Z' ≤ 'z') ∧ 'Z' ≠ '|' ∧ 'Z' ≠ 'I' ∧ 'Z' ≠ 'O') ∧
    ocrFix 'Z' = 'Z' :=
  ⟨⟨by decide, by decide, by decide, by decide⟩,
    claim_C10.2.2.2.2.2.2.1 'Z' (by decide) (by decide) (by decide) (by decide)⟩

-- ════════════════════════════════════════
-- Claim C4
-- ════════════════════════════════════════

/-- A substring match with a nonempty pattern puts the head of the
pattern inside the searched list. -/
theorem containsSubB_mem {p : Char} {ps l : List Char}
    (h : containsSubB (p :: ps) l = true) : p ∈ l := by
  induction l with
  | nil => simp [containsSubB] at h
  | cons c rest ih =>
    rw [containsSubB, Bool.or_eq_true] at h
    rcases h with h | h
    · rw [List.isPrefixOf_iff_prefix] at h
      rw [List.cons_prefix_cons] at h
      exact h.1 ▸ List.mem_cons_self c rest
    · exact List.mem_cons_of_mem c (ih h)

/-- Counterexample for claim C4: the positional GS1 test of
detectFormat searches the AI tokens in the whole string, so an input
whose only token 17 sits inside the GTIN body is still classified as
positional GS1 even though the remainder after the body holds no AI
token. -/
theorem claim_C4_cex :
    detectFormatS "0117000000000000AAA" = UFormat.gs1Full ∧
    (containsSubB ['1', '7'] ("0117000000000000AAA".toList.drop 16) ||
      containsSubB ['2', '1'] ("0117000000000000AAA".toList.drop 16) ||
      containsSubB ['1', '0'] ("0117000000000000AAA".toList.drop 16)) = false := by
  decide

/-- Claim C4 amended: detectFormat classifies an input as positional
GS1 exactly when it has no parenthesised 01 tag, starts with 01, is
longer than sixteen characters, and contains one of the tokens 17, 21
or 10 anywhere in the whole string, including inside the GTIN body;
and every fourteen digit string starting with 01 falls through to the
digit count classification GTIN14. -/
theorem claim_C4 :
    (∀ l : List Char,
      detectFormat l = UFormat.gs1Full ↔
        (containsSubB ['(', '0', '1', ')'] l = false ∧
          ['0', '1'].isPrefixOf l = true ∧ 16 < l.length ∧
          (containsSubB ['1', '7'] l = true ∨ containsSubB ['2', '1'] l = true ∨
            containsSubB ['1', '0'] l = true))) ∧
    (∀ l : List Char, l.length = 14 → l.all Char.isDigit = true →
      ['0', '1'].isPrefixOf l = true → detectFormat l = UFormat.gtin14) := by
  constructor
  · intro l
    by_cases h1 : containsSubB ['(', '0', '1', ')'] l = true
    · rw [show detectFormat l = UFormat.gs1Parenthesized from by simp [detectFormat, h1]]
      apply iff_of_false
      · simp
      · rintro ⟨hc, -, -, -⟩
        rw [h1] at hc
        simp at hc
    · have h1f : containsSubB ['(', '0', '1', ')'] l = false := by
        revert h1; cases containsSubB ['(', '0', '1', ')'] l <;> simp
      by_cases h2 : (['0', '1'].isPrefixOf l && decide (16 < l.length) &&
          (containsSubB ['1', '7'] l || containsSubB ['2', '1'] l ||
            containsSubB ['1', '0'] l)) = true
      · have hv : detectFormat l = UFormat.gs1Full := by
          simp only [detectFormat]
          rw [if_neg (by rw [h1f]; exact Bool.false_ne_true), if_pos h2]
        rw [hv]
        simp only [Bool.and_eq_true, Bool.or_eq_true, decide_eq_true_eq] at h2
        exact iff_of_true rfl ⟨h1f, h2.1.1, h2.1.2, or_assoc.mp h2.2⟩
      · have h2f : (['0', '1'].isPrefixOf l && decide (16 < l.length) &&
            (containsSubB ['1', '7'] l || containsSubB ['2', '1'] l ||
              containsSubB ['1', '0'] l)) = false := by
          revert h2
          cases (['0', '1'].isPrefixOf l && decide (16 < l.length) &&
            (containsSubB ['1', '7'] l || containsSubB ['2', '1'] l ||
              containsSubB ['1', '0'] l)) <;> simp
        have hv : detectFormat l ≠ UFormat.gs1Full := by
          simp only [detectFormat]
          rw [if_neg (by rw [h1f]; exact Bool.false_ne_true),
            if_neg (by rw [h2f]; exact Bool.false_ne_true)]
          split
          · exact fun hd => UFormat.noConfusion hd
          · split
            · exact fun hd => UFormat.noConfusion hd
            · split
              · exact fun hd => UFormat.noConfusion hd
              · split
                · exact fun hd => UFormat.noConfusion hd
                · exact fun hd => UFormat.noConfusion hd
        apply iff_of_false hv
        rintro ⟨-, hpre, hlen, htok⟩
        apply Bool.false_ne_true
        rw [← h2f, Bool.and_eq_true, Bool.and_eq_true]
        refine ⟨⟨hpre, by simpa using hlen⟩, ?_⟩
        rw [Bool.or_eq_true, Bool.or_eq_true]
        tauto
  · intro l h14 hdig hpre
    have hnp : containsSubB ['(', '0', '1', ')'] l = false := by
      rw [Bool.eq_false_iff]
      intro hc
      have := containsSubB_mem hc
      have hd := List.all_eq_true.mp hdig _ this
      simp [Char.isDigit] at hd
    have hlen : decide (16 < l.length) = false := by
      simp [h14]
    have hfil : l.filter Char.isDigit = l :=
      List.filter_eq_self.mpr (List.all_eq_true.mp hdig)
    simp [detectFormat, hnp, hlen, hfil, h14]

/-- Witness for claim C4 at a fourteen digit input starting with 01. -/
theorem claim_C4_witness :
    ("01234567890123".toList.length = 14 ∧
      "01234567890123".toList.all Char.isDigit = true ∧
      ['0', '1'].isPrefixOf "01234567890123".toList = true) ∧
    detectFormat "01234567890123".toList = UFormat.gtin14 :=
  ⟨⟨by decide, by decide, by decide⟩,
    claim_C4.2 _ (by decide) (by decide) (by decide)⟩

-- ════════════════════════════════════════
-- Claim C8
-- ════════════════════════════════════════

/-- Counterexample for claim C8: the enhanced parser classifies a
thirteen digit scan as EAN13 and parseSimple then leaves the gtin
field null instead of the fourteen digit zero padded form. -/
theorem claim_C8_cex :
    detectFormatS "4006381333931" = UFormat.ean13 ∧
    (parseSimple "4006381333931".toList UFormat.ean13).gtin = none ∧
    (none : Option (List Char)) ≠ some (padStart14 "4006381333931".toList) := by
  decide

/-- Claim C8 amended: in the PharmaScan parser every non GS1 input
whose digit count is 14, 13, 12 or 8 gets the digits zero padded to
fourteen as its gtin, the identity on a fourteen digit input; in the
enhanced parser parseSimple instead sets gtin to the unpadded digits
only for the GTIN14 format and to null for EAN13, LEGACY12 and
EAN8. -/
theorem claim_C8 :
    (∀ raw : List Char, raw ≠ [] →
      hasParensB (cleanInput raw) = false → hasRawGS1B (cleanInput raw) = false →
      (((cleanInput raw).filter Char.isDigit).length = 14 ∨
        ((cleanInput raw).filter Char.isDigit).length = 13 ∨
        ((cleanInput raw).filter Char.isDigit).length = 12 ∨
        ((cleanInput raw).filter Char.isDigit).length = 8) →
      (gs1ParseL raw).gtin = padStart14 ((cleanInput raw).filter Char.isDigit) ∧
        (gs1ParseL raw).isGS1 = false) ∧
    (∀ l : List Char,
      (parseSimple l UFormat.gtin14).gtin = some (l.filter Char.isDigit) ∧
      (parseSimple l UFormat.ean13).gtin = none ∧
      (parseSimple l UFormat.legacy12).gtin = none ∧
      (parseSimple l UFormat.ean8).gtin = none) := by
  constructor
  · intro raw hne hp hr hlen
    have hcond : 8 ≤ ((cleanInput raw).filter Char.isDigit).length ∧
        ((cleanInput raw).filter Char.isDigit).length ≤ 14 := by
      rcases hlen with h | h | h | h <;> omega
    simp only [gs1ParseL]
    rw [if_neg hne, if_pos ⟨hp, hr⟩, if_pos hcond]
    exact ⟨rfl, rfl⟩
  · intro l
    exact ⟨rfl, rfl, rfl, rfl⟩

/-- Witness for claim C8 at the thirteen digit EAN input. -/
theorem claim_C8_witness :
    ("4006381333931".toList ≠ [] ∧
      hasParensB (cleanInput "4006381333931".toList) = false ∧
      hasRawGS1B (cleanInput "4006381333931".toList) = false ∧
      ((cleanInput "4006381333931".toList).filter Char.isDigit).length = 13) ∧
    ((gs1ParseL "4006381333931".toList).gtin =
        padStart14 ((cleanInput "4006381333931".toList).filter Char.isDigit) ∧
      (gs1ParseL "4006381333931".toList).isGS1 = false) :=
  ⟨⟨by decide, by decide, by decide, by decide⟩,
    claim_C8.1 _ (by decide) (by decide) (by decide) (Or.inr (Or.inl (by decide)))⟩

-- ════════════════════════════════════════
-- Claim C3
-- ════════════════════════════════════════

/-- A digit character is not JavaScript whitespace. -/
theorem digit_not_ws {c : Char} (h : Char.isDigit c = true) : jsWhitespace c = false := by
  rcases Bool.eq_false_or_eq_true (jsWhitespace c) with hw | hw
  · exfalso
    simp only [jsWhitespace, Bool.or_eq_true, decide_eq_true_eq] at hw
    rcases hw with ((((hw | hw) | hw) | hw) | hw) | hw <;>
      (subst hw; exact absurd h (by decide))
  · exact hw

/-- parseInt on a nonempty all digit string returns its value. -/
theorem jsParseInt_digits (l : List Char) (hne : l ≠ [])
    (hdig : l.all Char.isDigit = true) :
    jsParseInt l = some ((natOfDigits l : Int)) := by
  have hdw : l.dropWhile jsWhitespace = l := by
    cases l with
    | nil => rfl
    | cons c rest =>
      have hc := List.all_eq_true.mp hdig c (List.mem_cons_self c rest)
      rw [List.dropWhile_cons, if_neg]
      rw [digit_not_ws hc]
      exact Bool.false_ne_true
  have htw : l.takeWhile Char.isDigit = l := by
    rw [List.takeWhile_eq_self_iff]
    exact List.all_eq_true.mp hdig
  unfold jsParseInt
  rw [hdw]
  split
  · exfalso
    exact absurd (List.all_eq_true.mp hdig '-' (by simp)) (by decide)
  · exfalso
    exact absurd (List.all_eq_true.mp hdig '+' (by simp)) (by decide)
  · unfold digitsPrefix
    rw [htw]
    rw [if_neg hne]
    rfl

/-- A rendered ISO date string is never empty. -/
theorem isoRenderZ_ne_nil (y m d : Int) : isoRenderZ y m d ≠ [] := by
  simp [isoRenderZ]

/-- Counterexample for claim C3: the month token 13 is outside the
valid range, yet the PharmaScan parser still produces the expiry date
2026-13-30 instead of leaving the field absent; and the enhanced
formatExpiry applies no day zero convention, turning 260600 into
2026-06-00 rather than the last day of June. -/
theorem claim_C3_cex :
    (gs1Parse "(01)00012345678905(17)261330").expiryISO = "2026-13-30".toList ∧
    "2026-13-30".toList ≠ ([] : List Char) ∧
    formatExpiry "260600".toList = some "2026-06-00".toList := by
  decide

/-- Claim C3 amended: for every six digit token the PharmaScan
conversion yields year 2000 plus YY, month MM and day DD, except that
day 00 is replaced by the JS Date computation of the last day of the
stated month, which equals the calendar length of month MM whenever MM
lies in 1 to 12; months outside 1 to 12 are not rejected, the date
field is still produced and never left absent; the enhanced parser
formatExpiry reslices the token verbatim into 20YY-MM-DD with neither
a day zero convention nor any range check. -/
theorem claim_C3 :
    (∀ (r : GS1Result) (tok : List Char), tok.length = 6 →
      tok.all Char.isDigit = true →
      (expiryUpd r tok).expiry = tok ∧
      ((natOfDigits ((tok.drop 4).take 2) : Int) ≠ 0 →
        (expiryUpd r tok).expiryISO =
          isoRenderZ (2000 + (natOfDigits (tok.take 2) : Int))
            (natOfDigits ((tok.drop 2).take 2) : Int)
            (natOfDigits ((tok.drop 4).take 2) : Int)) ∧
      ((natOfDigits ((tok.drop 4).take 2) : Int) = 0 →
        (expiryUpd r tok).expiryISO =
          isoRenderZ (2000 + (natOfDigits (tok.take 2) : Int))
            (natOfDigits ((tok.drop 2).take 2) : Int)
            (jsLastDay (2000 + (natOfDigits (tok.take 2) : Int))
              (natOfDigits ((tok.drop 2).take 2) : Int))) ∧
      (expiryUpd r tok).expiryISO ≠ []) ∧
    (∀ y m : Int, 1 ≤ m → m ≤ 12 → jsLastDay y m = daysInMonthZ y m) ∧
    (∀ tok : List Char, tok.length = 6 →
      formatExpiry tok = some (['2', '0'] ++ tok.take 2 ++ ['-'] ++
        (tok.drop 2).take 2 ++ ['-'] ++ tok.drop 4)) := by
  refine ⟨?_, ?_, ?_⟩
  · intro r tok htok6 hdig
    have hsub : ∀ l2 : List Char, l2.Sublist tok → l2.all Char.isDigit = true := by
      intro l2 hl2
      rw [List.all_eq_true] at hdig ⊢
      exact fun c hc => hdig c (hl2.subset hc)
    have hy := jsParseInt_digits (tok.take 2)
      (by
        have hl : (tok.take 2).length = 2 := by rw [List.length_take]; omega
        intro h
        rw [h] at hl
        simp at hl)
      (hsub _ (List.take_sublist 2 tok))
    have hm := jsParseInt_digits ((tok.drop 2).take 2)
      (by
        have hl : ((tok.drop 2).take 2).length = 2 := by
          rw [List.length_take, List.length_drop]; omega
        intro h
        rw [h] at hl
        simp at hl)
      (hsub _ ((List.take_sublist 2 (tok.drop 2)).trans (List.drop_sublist 2 tok)))
    have hd := jsParseInt_digits ((tok.drop 4).take 2)
      (by
        have hl : ((tok.drop 4).take 2).length = 2 := by
          rw [List.length_take, List.length_drop]; omega
        intro h
        rw [h] at hl
        simp at hl)
      (hsub _ ((List.take_sublist 2 (tok.drop 4)).trans (List.drop_sublist 4 tok)))
    have hiso : (expiryUpd r tok).expiryISO = expISO tok := by
      simp [expiryUpd, htok6]
    refine ⟨by simp [expiryUpd, htok6], ?_, ?_, ?_⟩
    · intro hdd
      rw [hiso]
      simp only [expISO]
      rw [hy, hm, hd]
      simp only [Option.map_some', jsDayFix]
      rw [if_neg hdd]
      rfl
    · intro hdd
      rw [hiso]
      simp only [expISO]
      rw [hy, hm, hd]
      simp only [Option.map_some', jsDayFix]
      rw [if_pos hdd]
      rfl
    · rw [hiso]
      simp only [expISO]
      rw [hy, hm, hd]
      simp only [Option.map_some', jsDayFix]
      by_cases hdd : (natOfDigits ((tok.drop 4).take 2) : Int) = 0
      · rw [if_pos hdd]
        exact isoRenderZ_ne_nil _ _ _
      · rw [if_neg hdd]
        exact isoRenderZ_ne_nil _ _ _
  · intro y m h1 h2
    simp only [jsLastDay]
    rw [show y * 12 + m - 1 = m - 1 + 12 * y from by ring]
    rw [Int.add_mul_ediv_left _ _ (by norm_num : (12 : Int) ≠ 0)]
    rw [Int.ediv_eq_zero_of_lt (by omega) (by omega)]
    rw [Int.add_mul_emod_self_left]
    rw [Int.emod_eq_of_lt (by omega) (by omega)]
    simp
  · intro tok htok6
    simp [formatExpiry, htok6]

/-- Witness for claim C3 at the token 260630 and month June. -/
theorem claim_C3_witness :
    (("260630".toList.length = 6 ∧ "260630".toList.all Char.isDigit = true) ∧
      (expiryUpd (emptyR []) "260630".toList).expiry = "260630".toList) ∧
    ((1 : Int) ≤ 6 ∧ (6 : Int) ≤ 12 ∧ jsLastDay 2026 6 = daysInMonthZ 2026 6) :=
  ⟨⟨⟨by decide, by decide⟩,
      (claim_C3.1 (emptyR []) "260630".toList (by decide) (by decide)).1⟩,
    ⟨by decide, by decide, claim_C3.2.1 2026 6 (by decide) (by decide)⟩⟩

-- ════════════════════════════════════════
-- Claim C6
-- ════════════════════════════════════════

/-- Appending a binding at the back is only visible for keys that were
unbound before. -/
theorem alookup_append (idx : List (List Char × List Char)) (k k2 v : List Char) :
    alookup k (idx ++ [(k2, v)]) =
      if (alookup k idx).isSome then alookup k idx
      else if k2 = k then some v else none := by
  induction idx with
  | nil => simp [alookup]
  | cons p rest ih =>
    obtain ⟨k3, w⟩ := p
    by_cases h : k3 = k
    · simp [alookup, h]
    · have hstep : ∀ l, alookup k ((k3, w) :: l) = alookup k l := fun l => by
        simp [alookup, h]
      rw [List.cons_append, hstep, hstep, ih]

/-- Lookup after registering a value under a key set: an existing
binding wins, otherwise any key of the set now maps to the value. -/
theorem alookup_addKeys (ks : List (List Char)) (idx : List (List Char × List Char))
    (v k : List Char) :
    alookup k (addKeys idx ks v) =
      if (alookup k idx).isSome then alookup k idx
      else if k ∈ ks then some v else none := by
  induction ks generalizing idx with
  | nil =>
    rw [show addKeys idx [] v = idx from rfl]
    cases h : alookup k idx <;> simp [h]
  | cons k1 ks ih =>
    rw [show addKeys idx (k1 :: ks) v =
      addKeys (if (alookup k1 idx).isSome then idx else idx ++ [(k1, v)]) ks v from rfl]
    by_cases h1 : (alookup k1 idx).isSome = true
    · rw [if_pos h1, ih]
      by_cases hk : k = k1
      · subst hk
        simp [h1]
      · simp [List.mem_cons, hk]
    · rw [if_neg h1, ih]
      have h1n : alookup k1 idx = none := by
        rcases h : alookup k1 idx with _ | w
        · rfl
        · rw [h] at h1; simp at h1
      by_cases hk : k = k1
      · subst hk
        rw [alookup_append, h1n]
        simp
      · rw [alookup_append]
        have hin : (if (alookup k idx).isSome = true then alookup k idx
            else if k1 = k then some v else none) = alookup k idx := by
          cases h : alookup k idx with
          | some w2 => simp [h]
          | none =>
            simp only [h, Option.isSome_none, Bool.false_eq_true, if_false]
            rw [if_neg (fun hh => hk hh.symm)]
        rw [hin]
        cases h : alookup k idx <;> simp [h, List.mem_cons, hk]

/-- The name index lookup is decided by the first retained entry whose
key set holds the key; bindings already in the accumulator win. -/
theorem buildGo_lookup (data : List MEntry) :
    ∀ (idx : List (List Char × List Char)) (k : List Char),
      alookup k (buildGo idx data) =
        if (alookup k idx).isSome then alookup k idx
        else (firstHit k data).map MEntry.name := by
  induction data with
  | nil =>
    intro idx k
    rw [show buildGo idx [] = idx from rfl]
    cases h : alookup k idx <;> simp [h, firstHit]
  | cons e rest ih =>
    intro idx k
    by_cases hlen : (e.barcode.filter Char.isDigit).length < 8
    · rw [show buildGo idx (e :: rest) = buildGo idx rest from by simp [buildGo, hlen]]
      rw [ih]
      have h8 : ¬ 8 ≤ (e.barcode.filter Char.isDigit).length := by omega
      have hfh : firstHit k (e :: rest) = firstHit k rest := by
        simp only [firstHit, List.find?_cons]
        have : (decide (8 ≤ (e.barcode.filter Char.isDigit).length) &&
            decide (k ∈ entryKeys e)) = false := by simp [h8]
        rw [this]
      rw [hfh]
    · rw [show buildGo idx (e :: rest) =
        buildGo (addKeys idx (entryKeys e) e.name) rest from by simp [buildGo, hlen]]
      rw [ih, alookup_addKeys]
      have h8 : 8 ≤ (e.barcode.filter Char.isDigit).length := by omega
      by_cases hke : k ∈ entryKeys e
      · have hfh : firstHit k (e :: rest) = some e := by
          simp only [firstHit, List.find?_cons]
          have : (decide (8 ≤ (e.barcode.filter Char.isDigit).length) &&
              decide (k ∈ entryKeys e)) = true := by simp [h8, hke]
          rw [this]
        rw [hfh]
        cases h : alookup k idx <;> simp [h, hke]
      · have hfh : firstHit k (e :: rest) = firstHit k rest := by
          simp only [firstHit, List.find?_cons]
          have : (decide (8 ≤ (e.barcode.filter Char.isDigit).length) &&
              decide (k ∈ entryKeys e)) = false := by simp [hke]
          rw [this]
        rw [hfh]
        cases h : alookup k idx <;> simp [h, hke]

/-- The rms index lookup is decided by the first retained entry with a
nonempty rms whose key set holds the key. -/
theorem buildRMSGo_lookup (data : List MEntry) :
    ∀ (idx : List (List Char × List Char)) (k : List Char),
      alookup k (buildRMSGo idx data) =
        if (alookup k idx).isSome then alookup k idx
        else (firstHitRMS k data).map MEntry.rms := by
  induction data with
  | nil =>
    intro idx k
    rw [show buildRMSGo idx [] = idx from rfl]
    cases h : alookup k idx <;> simp [h, firstHitRMS]
  | cons e rest ih =>
    intro idx k
    by_cases hlen : (e.barcode.filter Char.isDigit).length < 8
    · rw [show buildRMSGo idx (e :: rest) = buildRMSGo idx rest from by
        simp [buildRMSGo, hlen]]
      rw [ih]
      have h8 : ¬ 8 ≤ (e.barcode.filter Char.isDigit).length := by omega
      have hfh : firstHitRMS k (e :: rest) = firstHitRMS k rest := by
        simp only [firstHitRMS, List.find?_cons]
        have : (decide (8 ≤ (e.barcode.filter Char.isDigit).length) &&
            decide (k ∈ entryKeys e) && decide (e.rms ≠ [])) = false := by simp [h8]
        rw [this]
      rw [hfh]
    · have h8 : 8 ≤ (e.barcode.filter Char.isDigit).length := by omega
      by_cases hr : e.rms = []
      · rw [show buildRMSGo idx (e :: rest) = buildRMSGo idx rest from by
          simp [buildRMSGo, hlen, hr]]
        rw [ih]
        have hfh : firstHitRMS k (e :: rest) = firstHitRMS k rest := by
          simp only [firstHitRMS, List.find?_cons]
          have : (decide (8 ≤ (e.barcode.filter Char.isDigit).length) &&
              decide (k ∈ entryKeys e) && decide (e.rms ≠ [])) = false := by simp [hr]
          rw [this]
        rw [hfh]
      · rw [show buildRMSGo idx (e :: rest) =
          buildRMSGo (addKeys idx (entryKeys e) e.rms) rest from by
          simp [buildRMSGo, hlen, hr]]
        rw [ih, alookup_addKeys]
        by_cases hke : k ∈ entryKeys e
        · have hfh : firstHitRMS k (e :: rest) = some e := by
            simp only [firstHitRMS, List.find?_cons]
            have : (decide (8 ≤ (e.barcode.filter Char.isDigit).length) &&
                decide (k ∈ entryKeys e) && decide (e.rms ≠ [])) = true := by
              simp [h8, hke, hr]
            rw [this]
          rw [hfh]
          cases h : alookup k idx <;> simp [h, hke]
        · have hfh : firstHitRMS k (e :: rest) = firstHitRMS k rest := by
            simp only [firstHitRMS, List.find?_cons]
            have : (decide (8 ≤ (e.barcode.filter Char.isDigit).length) &&
                decide (k ∈ entryKeys e) && decide (e.rms ≠ [])) = false := by
              simp [hke]
            rw [this]
          rw [hfh]
          cases h : alookup k idx <;> simp [h, hke]

/-- Counterexample for claim C6: two entries with the same barcode,
the first without an rms code and the second with one. The name index
keeps the first entry, but the rms index takes the second entry, so
the key resolves to a record merging both entries: the later colliding
entry is not fully shadowed. -/
theorem claim_C6_cex :
    alookup "11111111".toList
      (buildIndex [⟨"11111111".toList, "A".toList, []⟩,
        ⟨"11111111".toList, "B".toList, "R".toList⟩]) = some "A".toList ∧
    alookup "11111111".toList
      (buildRMS [⟨"11111111".toList, "A".toList, []⟩,
        ⟨"11111111".toList, "B".toList, "R".toList⟩]) = some "R".toList ∧
    masterFind
      (buildIndex [⟨"11111111".toList, "A".toList, []⟩,
        ⟨"11111111".toList, "B".toList, "R".toList⟩])
      (buildRMS [⟨"11111111".toList, "A".toList, []⟩,
        ⟨"11111111".toList, "B".toList, "R".toList⟩])
      "11111111".toList = ⟨"A".toList, "R".toList, "EXACT".toList⟩ := by
  decide

/-- Claim C6 amended: build skips entries with fewer than eight
stripped digits, registers a retained entry under at most four keys,
and the name index maps every key to the first retained entry that
claims it, never overwritten by later collisions; the rms index,
however, maps a key to the first colliding retained entry with a
nonempty rms code, so a key first registered by an entry without an
rms code acquires the rms of a later colliding entry, merging the two
registrations in the match result. -/
theorem claim_C6 :
    (∀ (e : MEntry) (data : List MEntry) (k : List Char),
      (e.barcode.filter Char.isDigit).length < 8 →
      alookup k (buildIndex (e :: data)) = alookup k (buildIndex data) ∧
      alookup k (buildRMS (e :: data)) = alookup k (buildRMS data)) ∧
    (∀ e : MEntry, (entryKeys e).length ≤ 4) ∧
    (∀ (data : List MEntry) (k : List Char),
      alookup k (buildIndex data) = (firstHit k data).map MEntry.name) ∧
    (∀ (data : List MEntry) (k : List Char),
      alookup k (buildRMS data) = (firstHitRMS k data).map MEntry.rms) := by
  refine ⟨?_, ?_, ?_, ?_⟩
  · intro e data k h
    constructor
    · rw [show buildIndex (e :: data) = buildIndex data from by
        simp [buildIndex, buildGo, h]]
    · rw [show buildRMS (e :: data) = buildRMS data from by
        simp [buildRMS, buildRMSGo, h]]
  · intro e
    simp only [entryKeys]
    exact List.length_filter_le _ _
  · intro data k
    rw [buildIndex, buildGo_lookup]
    simp [alookup]
  · intro data k
    rw [buildRMS, buildRMSGo_lookup]
    simp [alookup]

/-- Witness for claim C6 at a skipped three digit entry. -/
theorem claim_C6_witness :
    ((("123".toList : List Char).filter Char.isDigit).length < 8) ∧
    alookup "123".toList (buildIndex [⟨"123".toList, "X".toList, []⟩]) =
      alookup "123".toList (buildIndex []) :=
  ⟨by decide,
    (claim_C6.1 ⟨"123".toList, "X".toList, []⟩ [] "123".toList (by decide)).1⟩

-- ════════════════════════════════════════
-- Claim C5
-- ════════════════════════════════════════

/-- Counterexample for claim C5: the eight digit suffix of the Zyrtec
barcode is itself a registered key, so calling find on just those
eight digits hits the exact candidate and returns EXACT, not the
PARTIAL confidence stated in the claim. -/
theorem claim_C5_cex :
    (masterFind zidx zrms "07439358".toList).how = "EXACT".toList ∧
    "EXACT".toList ≠ "PARTIAL".toList := by
  decide

/-- Claim C5 amended: for a fourteen digit gtin the find result is
EXACT exactly when the gtin itself is a key, PARTIAL exactly when it
is not a key but the leading zero stripped form or the eight digit
suffix is, with the stripped form tried first, and NONE with an empty
record otherwise; on the Zyrtec index the fourteen digit padded form
finds EXACT, the fourteen digit zero padded form of the last eight
digits finds PARTIAL, and an unrelated gtin finds NONE (find on the
bare eight digit suffix itself returns EXACT, since that suffix is a
registered key). -/
theorem claim_C5 :
    (∀ (idx rms : List (List Char × List Char)) (g : List Char), g.length = 14 →
      ((masterFind idx rms g).how = "EXACT".toList ↔
        (alookup g idx).isSome = true) ∧
      ((masterFind idx rms g).how = "PARTIAL".toList ↔
        (alookup g idx = none ∧
          ((g.headD ' ' = '0' ∧ (alookup (g.drop 1) idx).isSome = true) ∨
            (alookup (takeLastN 8 g) idx).isSome = true))) ∧
      (alookup g idx = none →
        (g.headD ' ' = '0' → alookup (g.drop 1) idx = none) →
        alookup (takeLastN 8 g) idx = none →
        masterFind idx rms g = ⟨[], [], "NONE".toList⟩) ∧
      (∀ n : List Char, alookup g idx = none → g.headD ' ' = '0' →
        alookup (g.drop 1) idx = some n →
        (masterFind idx rms g).name = n)) ∧
    (masterFind zidx zrms "06291107439358".toList).how = "EXACT".toList ∧
    (masterFind zidx zrms "06291107439358".toList).name = "Zyrtec".toList ∧
    (masterFind zidx zrms "00000007439358".toList).how = "PARTIAL".toList ∧
    (masterFind zidx zrms "00000007439358".toList).name = "Zyrtec".toList ∧
    (masterFind zidx zrms "99999999999999".toList).how = "NONE".toList ∧
    (masterFind zidx zrms "99999999999999".toList).name = [] := by
  refine ⟨?_, by decide, by decide, by decide, by decide, by decide, by decide⟩
  intro idx rms g hg14
  have hgne : g ≠ [] := by
    intro h; rw [h] at hg14; simp at hg14
  have hdlen : (g.drop 1).length = 13 := by rw [List.length_drop, hg14]
  have hdne : g.drop 1 ≠ [] := by
    intro h; rw [h] at hdlen; simp at hdlen
  have hdg : g.drop 1 ≠ g := by
    intro h; rw [h] at hdlen; omega
  have h3len : (takeLastN 8 g).length = 8 := by
    simp [takeLastN, List.length_drop, hg14]
  have h3ne : takeLastN 8 g ≠ [] := by
    intro h; rw [h] at h3len; simp at h3len
  have h3g : takeLastN 8 g ≠ g := by
    intro h; rw [h] at h3len; omega
  have hMF : masterFind idx rms g = masterFindLoop idx rms g
      (([g, if g.headD ' ' = '0' then g.drop 1 else [], takeLastN 8 g]).filter
        (fun k => decide (k ≠ []))) := by
    rw [masterFind, if_neg hgne]
  by_cases hd : g.headD ' ' = '0'
  · have hcand : ([g, if g.headD ' ' = '0' then g.drop 1 else [],
        takeLastN 8 g]).filter (fun k => decide (k ≠ [])) =
        [g, g.drop 1, takeLastN 8 g] := by
      rw [if_pos hd]
      simp [List.filter_cons, hgne, hdne, h3ne, -List.drop_one]
    rcases e1 : alookup g idx with _ | n1
    · rcases e2 : alookup (g.drop 1) idx with _ | n2
      · rcases e3 : alookup (takeLastN 8 g) idx with _ | n3
        · have hres : masterFind idx rms g = ⟨[], [], "NONE".toList⟩ := by
            rw [hMF, hcand]
            simp [masterFindLoop, e1, e2, e3, -List.drop_one]
          refine ⟨?_, ?_, ?_, ?_⟩
          · rw [hres]
            exact iff_of_false (by decide) (by simp)
          · rw [hres]
            refine iff_of_false (by decide) ?_
            rintro ⟨-, h | h⟩ <;> simp at h
          · intro _ _ _; exact hres
          · intro n h1' hd' h2'
            exact Option.noConfusion h2'
        · have hres : masterFind idx rms g =
              ⟨n3, (alookup (takeLastN 8 g) rms).getD [], "PARTIAL".toList⟩ := by
            rw [hMF, hcand]
            simp [masterFindLoop, e1, e2, e3, h3g, -List.drop_one]
          refine ⟨?_, ?_, ?_, ?_⟩
          · rw [hres]
            show "PARTIAL".toList = "EXACT".toList ↔ _
            exact iff_of_false (by decide) (by simp)
          · rw [hres]
            exact iff_of_true rfl ⟨rfl, Or.inr rfl⟩
          · intro _ _ h3'
            exact Option.noConfusion h3'
          · intro n h1' hd' h2'
            exact Option.noConfusion h2'
      · have hres : masterFind idx rms g =
            ⟨n2, (alookup (g.drop 1) rms).getD [], "PARTIAL".toList⟩ := by
          rw [hMF, hcand]
          simp [masterFindLoop, e1, e2, hdg, -List.drop_one]
        refine ⟨?_, ?_, ?_, ?_⟩
        · rw [hres]
          show "PARTIAL".toList = "EXACT".toList ↔ _
          exact iff_of_false (by decide) (by simp)
        · rw [hres]
          exact iff_of_true rfl ⟨rfl, Or.inl ⟨hd, rfl⟩⟩
        · intro _ h2' _
          exact Option.noConfusion (h2' hd)
        · intro n h1' hd' h2'
          rw [hres]
          exact Option.some.inj h2'
    · have hres : masterFind idx rms g =
          ⟨n1, (alookup g rms).getD [], "EXACT".toList⟩ := by
        rw [hMF, hcand]
        simp [masterFindLoop, e1]
      refine ⟨?_, ?_, ?_, ?_⟩
      · rw [hres]
        exact iff_of_true rfl rfl
      · rw [hres]
        show "EXACT".toList = "PARTIAL".toList ↔ _
        refine iff_of_false (by decide) ?_
        rintro ⟨h1', -⟩
        exact Option.noConfusion h1'
      · intro h1' _ _
        exact Option.noConfusion h1'
      · intro n h1' hd' h2'
        exact Option.noConfusion h1'
  · have hcand : ([g, if g.headD ' ' = '0' then g.drop 1 else [],
        takeLastN 8 g]).filter (fun k => decide (k ≠ [])) =
        [g, takeLastN 8 g] := by
      rw [if_neg hd]
      simp [List.filter_cons, hgne, h3ne]
    rcases e1 : alookup g idx with _ | n1
    · rcases e3 : alookup (takeLastN 8 g) idx with _ | n3
      · rcases e2 : alookup (g.drop 1) idx with _ | n2
        · have hres : masterFind idx rms g = ⟨[], [], "NONE".toList⟩ := by
            rw [hMF, hcand]
            simp [masterFindLoop, e1, e3]
          refine ⟨?_, ?_, ?_, ?_⟩
          · rw [hres]
            exact iff_of_false (by decide) (by simp)
          · rw [hres]
            refine iff_of_false (by decide) ?_
            rintro ⟨-, h | h⟩
            · exact hd h.1
            · simp at h
          · intro _ _ _; exact hres
          · intro n h1' hd' h2'
            exact absurd hd' hd
        · have hres : masterFind idx rms g = ⟨[], [], "NONE".toList⟩ := by
            rw [hMF, hcand]
            simp [masterFindLoop, e1, e3]
          refine ⟨?_, ?_, ?_, ?_⟩
          · rw [hres]
            exact iff_of_false (by decide) (by simp)
          · rw [hres]
            refine iff_of_false (by decide) ?_
            rintro ⟨-, h | h⟩
            · exact hd h.1
            · simp at h
          · intro _ _ _; exact hres
          · intro n h1' hd' h2'
            exact absurd hd' hd
      · rcases e2 : alookup (g.drop 1) idx with _ | n2
        · have hres : masterFind idx rms g =
              ⟨n3, (alookup (takeLastN 8 g) rms).getD [], "PARTIAL".toList⟩ := by
            rw [hMF, hcand]
            simp [masterFindLoop, e1, e3, h3g]
          refine ⟨?_, ?_, ?_, ?_⟩
          · rw [hres]
            show "PARTIAL".toList = "EXACT".toList ↔ _
            exact iff_of_false (by decide) (by simp)
          · rw [hres]
            exact iff_of_true rfl ⟨rfl, Or.inr rfl⟩
          · intro _ _ h3'
            exact Option.noConfusion h3'
          · intro n h1' hd' h2'
            exact absurd hd' hd
        · have hres : masterFind idx rms g =
              ⟨n3, (alookup (takeLastN 8 g) rms).getD [], "PARTIAL".toList⟩ := by
            rw [hMF, hcand]
            simp [masterFindLoop, e1, e3, h3g]
          refine ⟨?_, ?_, ?_, ?_⟩
          · rw [hres]
            show "PARTIAL".toList = "EXACT".toList ↔ _
            exact iff_of_false (by decide) (by simp)
          · rw [hres]
            exact iff_of_true rfl ⟨rfl, Or.inr rfl⟩
          · intro _ _ h3'
            exact Option.noConfusion h3'
          · intro n h1' hd' h2'
            exact absurd hd' hd
    · have hres : masterFind idx rms g =
          ⟨n1, (alookup g rms).getD [], "EXACT".toList⟩ := by
        rw [hMF, hcand]
        simp [masterFindLoop, e1]
      refine ⟨?_, ?_, ?_, ?_⟩
      · rw [hres]
        exact iff_of_true rfl rfl
      · rw [hres]
        show "EXACT".toList = "PARTIAL".toList ↔ _
        refine iff_of_false (by decide) ?_
        rintro ⟨h1', -⟩
        exact Option.noConfusion h1'
      · intro h1' _ _
        exact Option.noConfusion h1'
      · intro n h1' hd' h2'
        exact Option.noConfusion h1'

/-- Witness for claim C5 at the Zyrtec index and the padded gtin. -/
theorem claim_C5_witness :
    ("06291107439358".toList.length = 14) ∧
    ((masterFind zidx zrms "06291107439358".toList).how = "EXACT".toList ↔
      (alookup "06291107439358".toList zidx).isSome = true) :=
  ⟨by decide, (claim_C5.1 zidx zrms "06291107439358".toList (by decide)).1⟩

-- ════════════════════════════════════════
-- Claim C7
-- ════════════════════════════════════════

/-- A successful fixed length scan captures exactly n digits. -/
theorem scanFixed_sound (a b : Char) (n : Nat) :
    ∀ (code v : List Char), scanFixed a b n code = some v →
      v.length = n ∧ v.all Char.isDigit = true := by
  intro code
  induction code with
  | nil => intro v h; simp [scanFixed] at h
  | cons c rest ih =>
    intro v h
    simp only [scanFixed] at h
    split at h
    · rename_i hc
      rw [← Option.some.inj h]
      exact ⟨hc.1.2, hc.2⟩
    · exact ih v h

/-- The expiry update never touches the gtin field. -/
theorem expiryUpd_gtin (r : GS1Result) (tok : List Char) :
    (expiryUpd r tok).gtin = r.gtin := by
  unfold expiryUpd
  split <;> rfl

/-- The positional loop never grows the gtin beyond fourteen
characters: the only assignment takes at most fourteen. -/
theorem parseRawAux_gtin_le :
    ∀ (f : Nat) (r : GS1Result) (code : List Char),
      r.gtin.length ≤ 14 → ((parseRawAux f r code).gtin).length ≤ 14 := by
  intro f
  induction f with
  | zero =>
    intro r code h
    simpa [parseRawAux] using h
  | succ f ih =>
    intro r code h
    cases code with
    | nil => simpa [parseRawAux] using h
    | cons c rest =>
      simp only [parseRawAux]
      split
      · exact ih _ _ h
      · split
        · exact ih _ _ (by simp)
        · split
          · exact ih _ _ (by simpa [expiryUpd_gtin] using h)
          · split
            · exact ih _ _ (by simpa using h)
            · split
              · exact ih _ _ (by simpa using h)
              · exact ih _ _ h

/-- Counterexample for claim C7: a positional input whose 01 tag
repeats. The loop reads the second 01 near the end of the string and
overwrites the gtin with the three character tail ABC, so the result
carries a GS1 format with a gtin that is neither absent nor fourteen
digits. -/
theorem claim_C7_cex :
    (gs1Parse "011234567890123401ABC").isGS1 = true ∧
    (gs1Parse "011234567890123401ABC").gtin = "ABC".toList ∧
    "ABC".toList ≠ ([] : List Char) ∧
    ("ABC".toList : List Char).length ≠ 14 := by
  decide

/-- Claim C7 amended: in parenthesised GS1 mode the gtin is absent or
exactly fourteen digits; in positional mode the gtin is only
guaranteed to have at most fourteen characters, since a repeated 01
token can overwrite the initial fourteen digit capture with a shorter
or non numeric substring. -/
theorem claim_C7 :
    (∀ raw : List Char, raw ≠ [] → hasParensB (cleanInput raw) = true →
      (gs1ParseL raw).gtin = [] ∨
        ((gs1ParseL raw).gtin.length = 14 ∧
          (gs1ParseL raw).gtin.all Char.isDigit = true)) ∧
    (∀ raw : List Char, (gs1ParseL raw).isGS1 = true →
      hasParensB (cleanInput raw) = false →
      (gs1ParseL raw).gtin.length ≤ 14) := by
  constructor
  · intro raw hne hp
    simp only [gs1ParseL]
    rw [if_neg hne]
    rw [if_neg (by rintro ⟨h1, -⟩; rw [hp] at h1; exact Bool.noConfusion h1)]
    rw [if_pos hp]
    rcases hg : scanFixed '0' '1' 14 (cleanInput raw) with _ | g
    · left
      rcases he : scanFixed '1' '7' 6 (cleanInput raw) with _ | e <;>
        rcases hb : scanVar '1' '0' (cleanInput raw) with _ | b <;>
          rcases hs : scanVar '2' '1' (cleanInput raw) with _ | s <;>
            simp [emptyR, expiryUpd_gtin]
    · right
      have hsound := scanFixed_sound '0' '1' 14 (cleanInput raw) g hg
      rcases he : scanFixed '1' '7' 6 (cleanInput raw) with _ | e <;>
        rcases hb : scanVar '1' '0' (cleanInput raw) with _ | b <;>
          rcases hs : scanVar '2' '1' (cleanInput raw) with _ | s <;>
            simp [expiryUpd_gtin, hsound.1, hsound.2]
  · intro raw hg hp
    by_cases hne : raw = []
    · rw [hne] at hg
      simp [gs1ParseL, emptyR] at hg
    · by_cases hr : hasRawGS1B (cleanInput raw) = true
      · simp only [gs1ParseL]
        rw [if_neg hne]
        rw [if_neg (by rintro ⟨-, h2⟩; rw [hr] at h2; exact Bool.noConfusion h2)]
        rw [if_neg (by rw [hp]; exact Bool.false_ne_true)]
        exact parseRawAux_gtin_le _ _ _ (by simp [emptyR])
      · exfalso
        have hval : (gs1ParseL raw).isGS1 = false := by
          simp only [gs1ParseL]
          rw [if_neg hne]
          rw [if_pos ⟨hp, by revert hr; cases hasRawGS1B (cleanInput raw) <;> simp⟩]
          split <;> rfl
        rw [hval] at hg
        exact Bool.noConfusion hg

/-- Witness for claim C7 at the parenthesised round trip input. -/
theorem claim_C7_witness :
    (("(01)00012345678905(17)260630(10)BATCH1(21)SER99".toList ≠
        ([] : List Char)) ∧
      hasParensB (cleanInput
        "(01)00012345678905(17)260630(10)BATCH1(21)SER99".toList) = true) ∧
    ((gs1ParseL "(01)00012345678905(17)260630(10)BATCH1(21)SER99".toList).gtin = [] ∨
      ((gs1ParseL "(01)00012345678905(17)260630(10)BATCH1(21)SER99".toList).gtin.length = 14 ∧
        (gs1ParseL "(01)00012345678905(17)260630(10)BATCH1(21)SER99".toList).gtin.all
          Char.isDigit = true)) :=
  ⟨⟨by decide, by decide⟩, claim_C7.1 _ (by decide) (by decide)⟩

-- ════════════════════════════════════════
-- Claim C2: character and list utilities
-- ════════════════════════════════════════

/-- A digit character has a code point between 48 and 57. -/
theorem digit_bounds {c : Char} (h : Char.isDigit c = true) :
    48 ≤ c.toNat ∧ c.toNat ≤ 57 := by
  simp [Char.isDigit] at h
  exact h

/-- A digit is not an opening parenthesis. -/
theorem digit_ne_paren {c : Char} (h : Char.isDigit c = true) : c ≠ '(' := by
  intro he; subst he; exact absurd h (by decide)

/-- A digit is not the group separator. -/
theorem digit_ne_gs {c : Char} (h : Char.isDigit c = true) : c ≠ gsChar := by
  intro he; subst he; exact absurd h (by decide)

/-- A printable character is none of the stripped control characters. -/
theorem printable_ne_ctl {c : Char} (h : 0x20 ≤ c.toNat) :
    c ≠ '\r' ∧ c ≠ '\n' ∧ c ≠ '\t' := by
  refine ⟨?_, ?_, ?_⟩ <;> (intro he; subst he; exact absurd h (by decide))

/-- A printable character is not the group separator. -/
theorem printable_ne_gs {c : Char} (h : 0x20 ≤ c.toNat) : c ≠ gsChar := by
  intro he; subst he; exact absurd h (by decide)

/-- A digit is none of the stripped control characters. -/
theorem digit_ne_ctl {c : Char} (h : Char.isDigit c = true) :
    c ≠ '\r' ∧ c ≠ '\n' ∧ c ≠ '\t' :=
  printable_ne_ctl (by have := digit_bounds h; omega)

/-- Membership survives removal of trailing characters. -/
theorem mem_rdropWhile {p : Char → Bool} {l : List Char} {c : Char}
    (h : c ∈ rdropWhile p l) : c ∈ l := by
  unfold rdropWhile at h
  rw [List.mem_reverse] at h
  exact List.mem_reverse.mp ((List.dropWhile_sublist _).subset h)

/-- Dropping a prefix stops no later than a failing element. -/
theorem dropWhile_append_cons_neg (p : Char → Bool) (A Z : List Char) (x : Char)
    (hx : p x = false) :
    (A ++ x :: Z).dropWhile p = A.dropWhile p ++ x :: Z := by
  induction A with
  | nil => simp [List.dropWhile_cons, hx]
  | cons a A ih =>
    rcases Bool.eq_false_or_eq_true (p a) with ha | ha <;>
      simp [List.dropWhile_cons, ha, ih]

/-- Trailing removal passes over a separator element that fails the
predicate: everything before it is kept verbatim. -/
theorem rdropWhile_append_cons (p : Char → Bool) (A S : List Char) (x : Char)
    (hx : p x = false) :
    rdropWhile p (A ++ x :: S) = A ++ x :: rdropWhile p S := by
  unfold rdropWhile
  rw [show (A ++ x :: S).reverse = S.reverse ++ x :: A.reverse from by simp]
  rw [dropWhile_append_cons_neg p S.reverse A.reverse x hx]
  simp

/-- The control character removal is the identity on clean strings. -/
theorem stripCRLFTab_eq_self {l : List Char}
    (h : ∀ c ∈ l, c ≠ '\r' ∧ c ≠ '\n' ∧ c ≠ '\t') : stripCRLFTab l = l := by
  unfold stripCRLFTab
  rw [List.filter_eq_self]
  intro a ha
  obtain ⟨h1, h2, h3⟩ := h a ha
  simp [h1, h2, h3]

/-- Dropping from the front stops at a failing head. -/
theorem dropWhile_head_false (p : Char → Bool) (x : Char) (l : List Char)
    (hx : p x = false) : (x :: l).dropWhile p = x :: l := by
  simp [List.dropWhile_cons, hx]

-- ════════════════════════════════════════
-- Claim C2: scanner walk lemmas
-- ════════════════════════════════════════

/-- The fixed length scan passes over a non parenthesis character. -/
theorem scanFixed_cons_skip (a b : Char) (n : Nat) (x : Char) (l : List Char)
    (hx : x ≠ '(') : scanFixed a b n (x :: l) = scanFixed a b n l := by
  simp only [scanFixed]
  rw [if_neg]
  rintro ⟨⟨h4, -⟩, -⟩
  have h4' : x :: l.take 3 = ['(', a, b, ')'] := h4
  injection h4' with hx' _
  exact hx hx'

/-- The fixed length scan passes over a parenthesis free block. -/
theorem scanFixed_append_skip (a b : Char) (n : Nat) (X : List Char)
    (hX : ∀ c ∈ X, c ≠ '(') (rest : List Char) :
    scanFixed a b n (X ++ rest) = scanFixed a b n rest := by
  induction X with
  | nil => rfl
  | cons x X ih =>
    rw [List.cons_append, scanFixed_cons_skip a b n x _ (hX x (List.mem_cons_self _ _))]
    exact ih (fun c hc => hX c (List.mem_cons_of_mem _ hc))

/-- The fixed length scan passes over a tag that does not match. -/
theorem scanFixed_cons_mismatch (a b x y : Char) (n : Nat) (l : List Char)
    (hxy : ¬(x = a ∧ y = b)) :
    scanFixed a b n ('(' :: x :: y :: l) = scanFixed a b n (x :: y :: l) := by
  simp only [scanFixed]
  rw [if_neg]
  rintro ⟨⟨h4, -⟩, -⟩
  have h4' : '(' :: x :: y :: l.take 1 = ['(', a, b, ')'] := h4
  injection h4' with _ h4''
  injection h4'' with hxa h4'''
  injection h4''' with hyb _
  exact hxy ⟨hxa, hyb⟩

/-- The fixed length scan matches its own tag followed by the right
number of digits. -/
theorem scanFixed_cons_match (a b : Char) (n : Nat) (D rest : List Char)
    (hD1 : D.length = n) (hD2 : D.all Char.isDigit = true) :
    scanFixed a b n ('(' :: a :: b :: ')' :: (D ++ rest)) = some D := by
  have hdrop : ('(' :: a :: b :: ')' :: (D ++ rest)).drop 4 = D ++ rest := rfl
  simp only [scanFixed]
  rw [if_pos]
  · rw [hdrop, List.take_left' hD1]
  · refine ⟨⟨rfl, ?_⟩, ?_⟩
    · rw [hdrop, List.take_left' hD1, hD1]
    · rw [hdrop, List.take_left' hD1]; exact hD2

/-- The variable length scan passes over a non parenthesis character. -/
theorem scanVar_cons_skip (a b x : Char) (l : List Char) (hx : x ≠ '(') :
    scanVar a b (x :: l) = scanVar a b l := by
  simp only [scanVar]
  rw [if_neg]
  rintro ⟨h4, -⟩
  have h4' : x :: l.take 3 = ['(', a, b, ')'] := h4
  injection h4' with hx' _
  exact hx hx'

/-- The variable length scan passes over a parenthesis free block. -/
theorem scanVar_append_skip (a b : Char) (X : List Char)
    (hX : ∀ c ∈ X, c ≠ '(') (rest : List Char) :
    scanVar a b (X ++ rest) = scanVar a b rest := by
  induction X with
  | nil => rfl
  | cons x X ih =>
    rw [List.cons_append, scanVar_cons_skip a b x _ (hX x (List.mem_cons_self _ _))]
    exact ih (fun c hc => hX c (List.mem_cons_of_mem _ hc))

/-- The variable length scan finds nothing in a parenthesis free
string. -/
theorem scanVar_none (a b : Char) (l : List Char) (hl : ∀ c ∈ l, c ≠ '(') :
    scanVar a b l = none := by
  induction l with
  | nil => rfl
  | cons x l ih =>
    rw [scanVar_cons_skip a b x l (hl x (List.mem_cons_self _ _))]
    exact ih (fun c hc => hl c (List.mem_cons_of_mem _ hc))

/-- The variable length scan passes over a tag that does not match. -/
theorem scanVar_cons_mismatch (a b x y : Char) (l : List Char)
    (hxy : ¬(x = a ∧ y = b)) :
    scanVar a b ('(' :: x :: y :: l) = scanVar a b (x :: y :: l) := by
  simp only [scanVar]
  rw [if_neg]
  rintro ⟨h4, -⟩
  have h4' : '(' :: x :: y :: l.take 1 = ['(', a, b, ')'] := h4
  injection h4' with _ h4''
  injection h4'' with hxa h4'''
  injection h4''' with hyb _
  exact hxy ⟨hxa, hyb⟩

/-- The variable length scan captures a nonempty parenthesis free
value terminated by the next opening parenthesis. -/
theorem scanVar_cons_match (a b : Char) (V rest : List Char)
    (hV : ∀ c ∈ V, c ≠ '(') (hne : V ≠ []) :
    scanVar a b ('(' :: a :: b :: ')' :: (V ++ '(' :: rest)) = some V := by
  have hdrop : ('(' :: a :: b :: ')' :: (V ++ '(' :: rest)).drop 4 = V ++ '(' :: rest := rfl
  have htw : (V ++ '(' :: rest).takeWhile (fun x => x != '(') = V := by
    rw [List.takeWhile_append_of_pos (fun c hc => by simp [hV c hc])]
    simp [List.takeWhile_cons]
  simp only [scanVar]
  rw [if_pos]
  · rw [hdrop, htw]
  · exact ⟨rfl, by rw [hdrop, htw]; exact hne⟩

/-- The variable length scan captures a nonempty parenthesis free
value that runs to the end of the string. -/
theorem scanVar_cons_match_end (a b : Char) (V : List Char)
    (hV : ∀ c ∈ V, c ≠ '(') (hne : V ≠ []) :
    scanVar a b ('(' :: a :: b :: ')' :: V) = some V := by
  have htw : V.takeWhile (fun x => x != '(') = V :=
    List.takeWhile_eq_self_iff.mpr (fun c hc => by simp [hV c hc])
  simp only [scanVar]
  rw [if_pos]
  · rw [show ('(' :: a :: b :: ')' :: V).drop 4 = V from rfl, htw]
  · exact ⟨rfl, by
      rw [show ('(' :: a :: b :: ')' :: V).drop 4 = V from rfl, htw]; exact hne⟩

/-- A matching tag with an empty capture does not match: the scan
steps one character forward instead. -/
theorem scanVar_cons_nomatch (a b : Char) (l : List Char)
    (hl : l.takeWhile (fun x => x != '(') = []) :
    scanVar a b ('(' :: a :: b :: ')' :: l) = scanVar a b (a :: b :: ')' :: l) := by
  simp only [scanVar]
  rw [if_neg]
  rintro ⟨-, hne⟩
  rw [show ('(' :: a :: b :: ')' :: l).drop 4 = l from rfl, hl] at hne
  exact hne rfl

-- ════════════════════════════════════════
-- Claim C2: scans over the encoded shapes
-- ════════════════════════════════════════

/-- No opening parenthesis in an append of clean blocks. -/
theorem no_paren_append {X Y : List Char} (hX : ∀ c ∈ X, c ≠ '(')
    (hY : ∀ c ∈ Y, c ≠ '(') : ∀ c ∈ X ++ Y, c ≠ '(' :=
  fun c hc => (List.mem_append.mp hc).elim (hX c) (hY c)

/-- No opening parenthesis among digits. -/
theorem no_paren_digits {D : List Char} (hD : D.all Char.isDigit = true) :
    ∀ c ∈ D, c ≠ '(' :=
  fun c hc => digit_ne_paren (List.all_eq_true.mp hD c hc)

/-- The expiry regex search walks over the 01 group and captures the
six digits of the 17 group, for any continuation. -/
theorem scanFixed17_shape (G E rest : List Char) (hG2 : G.all Char.isDigit = true)
    (hE1 : E.length = 6) (hE2 : E.all Char.isDigit = true) :
    scanFixed '1' '7' 6
      ('(' :: '0' :: '1' :: ')' :: (G ++ ('(' :: '1' :: '7' :: ')' :: (E ++ rest)))) =
      some E := by
  rw [scanFixed_cons_mismatch '1' '7' '0' '1' 6 _ (by decide)]
  show scanFixed '1' '7' 6
    ((['0', '1', ')'] ++ G) ++ ('(' :: '1' :: '7' :: ')' :: (E ++ rest))) = some E
  rw [scanFixed_append_skip '1' '7' 6 _ (no_paren_append (by decide) (no_paren_digits hG2)) _]
  exact scanFixed_cons_match '1' '7' 6 E rest hE1 hE2

/-- The batch regex search walks over the 01 and 17 groups and
captures a nonempty batch terminated by the next parenthesis. -/
theorem scanVar10_shape (G E B rest : List Char) (hG2 : G.all Char.isDigit = true)
    (hE2 : E.all Char.isDigit = true) (hB : ∀ c ∈ B, c ≠ '(') (hBne : B ≠ []) :
    scanVar '1' '0'
      ('(' :: '0' :: '1' :: ')' :: (G ++ ('(' :: '1' :: '7' :: ')' ::
        (E ++ ('(' :: '1' :: '0' :: ')' :: (B ++ '(' :: rest)))))) = some B := by
  rw [scanVar_cons_mismatch '1' '0' '0' '1' _ (by decide)]
  show scanVar '1' '0' ((['0', '1', ')'] ++ G) ++ ('(' :: '1' :: '7' :: ')' ::
    (E ++ ('(' :: '1' :: '0' :: ')' :: (B ++ '(' :: rest))))) = some B
  rw [scanVar_append_skip '1' '0' _ (no_paren_append (by decide) (no_paren_digits hG2)) _]
  rw [scanVar_cons_mismatch '1' '0' '1' '7' _ (by decide)]
  show scanVar '1' '0' ((['1', '7', ')'] ++ E) ++
    ('(' :: '1' :: '0' :: ')' :: (B ++ '(' :: rest))) = some B
  rw [scanVar_append_skip '1' '0' _ (no_paren_append (by decide) (no_paren_digits hE2)) _]
  exact scanVar_cons_match '1' '0' B rest hB hBne

/-- With an empty batch the 10 group has an opening parenthesis right
after its tag, so the batch regex search fails everywhere. -/
theorem scanVar10_empty (G E S2 : List Char) (hG2 : G.all Char.isDigit = true)
    (hE2 : E.all Char.isDigit = true) (hS : ∀ c ∈ S2, c ≠ '(') :
    scanVar '1' '0'
      ('(' :: '0' :: '1' :: ')' :: (G ++ ('(' :: '1' :: '7' :: ')' ::
        (E ++ ('(' :: '1' :: '0' :: ')' ::
          ('(' :: '2' :: '1' :: ')' :: S2)))))) = none := by
  rw [scanVar_cons_mismatch '1' '0' '0' '1' _ (by decide)]
  show scanVar '1' '0' ((['0', '1', ')'] ++ G) ++ ('(' :: '1' :: '7' :: ')' ::
    (E ++ ('(' :: '1' :: '0' :: ')' :: ('(' :: '2' :: '1' :: ')' :: S2))))) = none
  rw [scanVar_append_skip '1' '0' _ (no_paren_append (by decide) (no_paren_digits hG2)) _]
  rw [scanVar_cons_mismatch '1' '0' '1' '7' _ (by decide)]
  show scanVar '1' '0' ((['1', '7', ')'] ++ E) ++
    ('(' :: '1' :: '0' :: ')' :: ('(' :: '2' :: '1' :: ')' :: S2))) = none
  rw [scanVar_append_skip '1' '0' _ (no_paren_append (by decide) (no_paren_digits hE2)) _]
  rw [scanVar_cons_nomatch '1' '0' _ (by simp [List.takeWhile_cons])]
  show scanVar '1' '0' (['1', '0', ')'] ++ ('(' :: '2' :: '1' :: ')' :: S2)) = none
  rw [scanVar_append_skip '1' '0' _ (by decide) _]
  rw [scanVar_cons_mismatch '1' '0' '2' '1' _ (by decide)]
  show scanVar '1' '0' (['2', '1', ')'] ++ S2) = none
  exact scanVar_none '1' '0' _ (no_paren_append (by decide) hS)

/-- The serial regex search walks over the 01, 17 and 10 groups and
captures a nonempty serial running to the end of the string. -/
theorem scanVar21_shape (G E B S2 : List Char) (hG2 : G.all Char.isDigit = true)
    (hE2 : E.all Char.isDigit = true) (hB : ∀ c ∈ B, c ≠ '(')
    (hS : ∀ c ∈ S2, c ≠ '(') (hSne : S2 ≠ []) :
    scanVar '2' '1'
      ('(' :: '0' :: '1' :: ')' :: (G ++ ('(' :: '1' :: '7' :: ')' ::
        (E ++ ('(' :: '1' :: '0' :: ')' ::
          (B ++ '(' :: '2' :: '1' :: ')' :: S2)))))) = some S2 := by
  rw [scanVar_cons_mismatch '2' '1' '0' '1' _ (by decide)]
  show scanVar '2' '1' ((['0', '1', ')'] ++ G) ++ ('(' :: '1' :: '7' :: ')' ::
    (E ++ ('(' :: '1' :: '0' :: ')' :: (B ++ '(' :: '2' :: '1' :: ')' :: S2))))) = some S2
  rw [scanVar_append_skip '2' '1' _ (no_paren_append (by decide) (no_paren_digits hG2)) _]
  rw [scanVar_cons_mismatch '2' '1' '1' '7' _ (by decide)]
  show scanVar '2' '1' ((['1', '7', ')'] ++ E) ++
    ('(' :: '1' :: '0' :: ')' :: (B ++ '(' :: '2' :: '1' :: ')' :: S2))) = some S2
  rw [scanVar_append_skip '2' '1' _ (no_paren_append (by decide) (no_paren_digits hE2)) _]
  rw [scanVar_cons_mismatch '2' '1' '1' '0' _ (by decide)]
  show scanVar '2' '1' ((['1', '0', ')'] ++ B) ++ ('(' :: '2' :: '1' :: ')' :: S2)) = some S2
  rw [scanVar_append_skip '2' '1' _ (no_paren_append (by decide) hB) _]
  exact scanVar_cons_match_end '2' '1' S2 hS hSne

/-- With an empty serial the 21 group ends the string right after its
tag, so the serial regex search fails everywhere. -/
theorem scanVar21_empty (G E B : List Char) (hG2 : G.all Char.isDigit = true)
    (hE2 : E.all Char.isDigit = true) (hB : ∀ c ∈ B, c ≠ '(') :
    scanVar '2' '1'
      ('(' :: '0' :: '1' :: ')' :: (G ++ ('(' :: '1' :: '7' :: ')' ::
        (E ++ ('(' :: '1' :: '0' :: ')' ::
          (B ++ '(' :: '2' :: '1' :: ')' :: ([] : List Char))))))) = none := by
  rw [scanVar_cons_mismatch '2' '1' '0' '1' _ (by decide)]
  show scanVar '2' '1' ((['0', '1', ')'] ++ G) ++ ('(' :: '1' :: '7' :: ')' ::
    (E ++ ('(' :: '1' :: '0' :: ')' ::
      (B ++ '(' :: '2' :: '1' :: ')' :: ([] : List Char)))))) = none
  rw [scanVar_append_skip '2' '1' _ (no_paren_append (by decide) (no_paren_digits hG2)) _]
  rw [scanVar_cons_mismatch '2' '1' '1' '7' _ (by decide)]
  show scanVar '2' '1' ((['1', '7', ')'] ++ E) ++ ('(' :: '1' :: '0' :: ')' ::
    (B ++ '(' :: '2' :: '1' :: ')' :: ([] : List Char)))) = none
  rw [scanVar_append_skip '2' '1' _ (no_paren_append (by decide) (no_paren_digits hE2)) _]
  rw [scanVar_cons_mismatch '2' '1' '1' '0' _ (by decide)]
  show scanVar '2' '1' ((['1', '0', ')'] ++ B) ++
    ('(' :: '2' :: '1' :: ')' :: ([] : List Char))) = none
  rw [scanVar_append_skip '2' '1' _ (no_paren_append (by decide) hB) _]
  rw [scanVar_cons_nomatch '2' '1' _ (by simp)]
  show scanVar '2' '1' (['2', '1', ')'] ++ ([] : List Char)) = none
  exact scanVar_none '2' '1' _ (by decide)

/-- The anchored positional test accepts 01 followed by fourteen
digits, whatever comes after. -/
theorem hasRawGS1B_cons01 (G R : List Char) (hG1 : G.length = 14)
    (hG2 : G.all Char.isDigit = true) :
    hasRawGS1B ('0' :: '1' :: (G ++ R)) = true := by
  simp only [hasRawGS1B, Bool.and_eq_true]
  refine ⟨⟨?_, ?_⟩, ?_⟩
  · simp [List.isPrefixOf]
  · simp only [decide_eq_true_eq, List.length_cons, List.length_append, hG1]
    omega
  · rw [show ('0' :: '1' :: (G ++ R)).drop 2 = G ++ R from rfl,
      List.take_left' hG1]
    exact hG2

-- ════════════════════════════════════════
-- Claim C2: positional loop steps
-- ════════════════════════════════════════

/-- The loop stops on an empty input for any fuel. -/
theorem parseRawAux_nil (f : Nat) (r : GS1Result) : parseRawAux f r [] = r := by
  cases f <;> rfl

/-- The loop reads a final 21 group up to the end of the string. -/
theorem posStepSerial (f : Nat) (r : GS1Result) (S2 : List Char)
    (hS : ∀ c ∈ S2, c ≠ gsChar) (hf : S2.length + 2 ≤ f) :
    parseRawAux f r ('2' :: '1' :: S2) = { r with serial := clean20 S2 } := by
  cases f with
  | zero => omega
  | succ f =>
    simp only [parseRawAux]
    rw [if_neg (by decide), if_neg (by intro h; simp at h),
      if_neg (by intro h; simp at h), if_neg (by intro h; simp at h),
      if_pos (show List.take 2 ('2' :: '1' :: S2) = ['2', '1'] from rfl)]
    rw [show ('2' :: '1' :: S2).drop 2 = S2 from rfl]
    rw [List.takeWhile_eq_self_iff.mpr (fun c hc => by simp [hS c hc])]
    rw [List.dropWhile_eq_nil_iff.mpr (fun c hc => by simp [hS c hc])]
    exact parseRawAux_nil f _

/-- The loop skips the separator before the 21 group. -/
theorem posStepGS (f : Nat) (r : GS1Result) (S2 : List Char)
    (hS : ∀ c ∈ S2, c ≠ gsChar) (hf : S2.length + 3 ≤ f) :
    parseRawAux f r (gsChar :: '2' :: '1' :: S2) = { r with serial := clean20 S2 } := by
  cases f with
  | zero => omega
  | succ f =>
    simp only [parseRawAux]
    rw [if_pos trivial]
    exact posStepSerial f r S2 hS (by omega)

/-- The loop reads a 10 group up to the separator, then the 21
group. -/
theorem posStep10 (f : Nat) (r : GS1Result) (B S2 : List Char)
    (hB : ∀ c ∈ B, c ≠ gsChar) (hS : ∀ c ∈ S2, c ≠ gsChar)
    (hf : B.length + S2.length + 5 ≤ f) :
    parseRawAux f r ('1' :: '0' :: (B ++ gsChar :: '2' :: '1' :: S2)) =
      { r with batch := clean20 B, serial := clean20 S2 } := by
  cases f with
  | zero => omega
  | succ f =>
    simp only [parseRawAux]
    rw [if_neg (by decide), if_neg (by intro h; simp at h),
      if_neg (by intro h; simp at h),
      if_pos (show List.take 2 ('1' :: '0' :: (B ++ gsChar :: '2' :: '1' :: S2)) =
        ['1', '0'] from rfl)]
    rw [show ('1' :: '0' :: (B ++ gsChar :: '2' :: '1' :: S2)).drop 2 =
      B ++ gsChar :: '2' :: '1' :: S2 from rfl]
    rw [List.takeWhile_append_of_pos (fun c hc => by simp [hB c hc])]
    rw [List.dropWhile_append_of_pos (fun c hc => by simp [hB c hc])]
    rw [show (gsChar :: '2' :: '1' :: S2).takeWhile (fun x => x != gsChar) = []
      from by simp [List.takeWhile_cons]]
    rw [show (gsChar :: '2' :: '1' :: S2).dropWhile (fun x => x != gsChar) =
      gsChar :: '2' :: '1' :: S2 from by simp [List.dropWhile_cons]]
    rw [List.append_nil]
    exact posStepGS f _ S2 hS (by simp at hf ⊢; omega)

/-- The loop reads the fixed six digit 17 group, then the rest. -/
theorem posStep17 (f : Nat) (r : GS1Result) (E B S2 : List Char)
    (hE1 : E.length = 6) (hB : ∀ c ∈ B, c ≠ gsChar) (hS : ∀ c ∈ S2, c ≠ gsChar)
    (hf : E.length + B.length + S2.length + 7 ≤ f) :
    parseRawAux f r ('1' :: '7' :: (E ++ '1' :: '0' :: (B ++ gsChar :: '2' :: '1' :: S2))) =
      { expiryUpd r E with batch := clean20 B, serial := clean20 S2 } := by
  cases f with
  | zero => omega
  | succ f =>
    simp only [parseRawAux]
    rw [if_neg (by decide), if_neg (by intro h; simp at h),
      if_pos (show List.take 2
        ('1' :: '7' :: (E ++ '1' :: '0' :: (B ++ gsChar :: '2' :: '1' :: S2))) =
        ['1', '7'] from rfl)]
    rw [show ('1' :: '7' :: (E ++ '1' :: '0' :: (B ++ gsChar :: '2' :: '1' :: S2))).drop 2 =
      E ++ '1' :: '0' :: (B ++ gsChar :: '2' :: '1' :: S2) from rfl]
    rw [List.take_left' hE1]
    rw [show ('1' :: '7' :: (E ++ '1' :: '0' :: (B ++ gsChar :: '2' :: '1' :: S2))).drop 8 =
      (E ++ '1' :: '0' :: (B ++ gsChar :: '2' :: '1' :: S2)).drop 6 from rfl]
    rw [List.drop_left' hE1]
    exact posStep10 f _ B S2 hB hS (by omega)

/-- The loop reads the fixed fourteen digit 01 group, then the rest:
the full positional shape of the equivalence claim. -/
theorem posStep01 (f : Nat) (r : GS1Result) (G E B S2 : List Char)
    (hG1 : G.length = 14) (hE1 : E.length = 6)
    (hB : ∀ c ∈ B, c ≠ gsChar) (hS : ∀ c ∈ S2, c ≠ gsChar)
    (hf : G.length + E.length + B.length + S2.length + 9 ≤ f) :
    parseRawAux f r
      ('0' :: '1' :: (G ++ '1' :: '7' :: (E ++ '1' :: '0' ::
        (B ++ gsChar :: '2' :: '1' :: S2)))) =
      { expiryUpd { r with gtin := G } E with
        batch := clean20 B, serial := clean20 S2 } := by
  cases f with
  | zero => omega
  | succ f =>
    simp only [parseRawAux]
    rw [if_neg (by decide),
      if_pos (show List.take 2 ('0' :: '1' :: (G ++ '1' :: '7' :: (E ++ '1' :: '0' ::
        (B ++ gsChar :: '2' :: '1' :: S2)))) = ['0', '1'] from rfl)]
    rw [show ('0' :: '1' :: (G ++ '1' :: '7' :: (E ++ '1' :: '0' ::
      (B ++ gsChar :: '2' :: '1' :: S2)))).drop 2 =
      G ++ '1' :: '7' :: (E ++ '1' :: '0' :: (B ++ gsChar :: '2' :: '1' :: S2)) from rfl]
    rw [List.take_left' hG1]
    rw [show ('0' :: '1' :: (G ++ '1' :: '7' :: (E ++ '1' :: '0' ::
      (B ++ gsChar :: '2' :: '1' :: S2)))).drop 16 =
      (G ++ '1' :: '7' :: (E ++ '1' :: '0' :: (B ++ gsChar :: '2' :: '1' :: S2))).drop 14
      from rfl]
    rw [List.drop_left' hG1]
    exact posStep17 f _ E B S2 hE1 hB hS (by omega)

-- ════════════════════════════════════════
-- Claim C2: input cleaning on the encodings
-- ════════════════════════════════════════

/-- Control freedom is preserved by append. -/
theorem noctl_append {X Y : List Char}
    (hX : ∀ c ∈ X, c ≠ '\r' ∧ c ≠ '\n' ∧ c ≠ '\t')
    (hY : ∀ c ∈ Y, c ≠ '\r' ∧ c ≠ '\n' ∧ c ≠ '\t') :
    ∀ c ∈ X ++ Y, c ≠ '\r' ∧ c ≠ '\n' ∧ c ≠ '\t' :=
  fun c hc => (List.mem_append.mp hc).elim (hX c) (hY c)

/-- Digits are none of the stripped control characters. -/
theorem noctl_digits {D : List Char} (hD : D.all Char.isDigit = true) :
    ∀ c ∈ D, c ≠ '\r' ∧ c ≠ '\n' ∧ c ≠ '\t' :=
  fun c hc => digit_ne_ctl (List.all_eq_true.mp hD c hc)

/-- Control freedom is preserved by cons. -/
theorem noctl_cons {a : Char} {Y : List Char}
    (ha : a ≠ '\r' ∧ a ≠ '\n' ∧ a ≠ '\t')
    (hY : ∀ c ∈ Y, c ≠ '\r' ∧ c ≠ '\n' ∧ c ≠ '\t') :
    ∀ c ∈ a :: Y, c ≠ '\r' ∧ c ≠ '\n' ∧ c ≠ '\t' :=
  fun c hc => (List.mem_cons.mp hc).elim (fun h => h ▸ ha) (hY c)

/-- Cleaning a parenthesised encoding only trims the trailing
whitespace of the serial value. -/
theorem cleanInput_parenEncode (G E B S : List Char)
    (hG2 : G.all Char.isDigit = true) (hE2 : E.all Char.isDigit = true)
    (hB : ∀ c ∈ B, 0x20 ≤ c.toNat) (hS : ∀ c ∈ S, 0x20 ≤ c.toNat) :
    cleanInput (parenEncode G E B S) =
      parenEncode G E B (rdropWhile jsWhitespace S) := by
  unfold cleanInput jsTrim
  rw [show (parenEncode G E B S).dropWhile jsWhitespace = parenEncode G E B S from
    dropWhile_head_false jsWhitespace '(' _ (by decide)]
  rw [show parenEncode G E B S =
    (['(', '0', '1', ')'] ++ G ++ ['(', '1', '7', ')'] ++ E ++ ['(', '1', '0', ')'] ++ B ++
      ['(', '2', '1']) ++ ')' :: S from by simp [parenEncode, List.append_assoc]]
  rw [rdropWhile_append_cons jsWhitespace _ S ')' (by decide)]
  rw [show (['(', '0', '1', ')'] ++ G ++ ['(', '1', '7', ')'] ++ E ++ ['(', '1', '0', ')'] ++ B ++
      ['(', '2', '1']) ++ ')' :: rdropWhile jsWhitespace S =
    parenEncode G E B (rdropWhile jsWhitespace S) from by
      simp [parenEncode, List.append_assoc]]
  apply stripCRLFTab_eq_self
  have h1 : ∀ c ∈ (['(', '0', '1', ')'] : List Char),
      c ≠ '\r' ∧ c ≠ '\n' ∧ c ≠ '\t' := by decide
  have h2 : ∀ c ∈ (['(', '1', '7', ')'] : List Char),
      c ≠ '\r' ∧ c ≠ '\n' ∧ c ≠ '\t' := by decide
  have h3 : ∀ c ∈ (['(', '1', '0', ')'] : List Char),
      c ≠ '\r' ∧ c ≠ '\n' ∧ c ≠ '\t' := by decide
  have h4 : ∀ c ∈ (['(', '2', '1', ')'] : List Char),
      c ≠ '\r' ∧ c ≠ '\n' ∧ c ≠ '\t' := by decide
  simp only [parenEncode]
  exact noctl_append h1 (noctl_append (noctl_digits hG2) (noctl_append h2
    (noctl_append (noctl_digits hE2) (noctl_append h3
      (noctl_append (fun c hc => printable_ne_ctl (hB c hc))
        (noctl_append h4
          (fun c hc => printable_ne_ctl (hS c (mem_rdropWhile hc)))))))))

/-- Cleaning a positional encoding only trims the trailing whitespace
of the serial value; the group separator in the middle survives. -/
theorem cleanInput_posEncode (G E B S : List Char)
    (hG2 : G.all Char.isDigit = true) (hE2 : E.all Char.isDigit = true)
    (hB : ∀ c ∈ B, 0x20 ≤ c.toNat) (hS : ∀ c ∈ S, 0x20 ≤ c.toNat) :
    cleanInput (posEncode G E B S) =
      posEncode G E B (rdropWhile jsWhitespace S) := by
  unfold cleanInput jsTrim
  rw [show (posEncode G E B S).dropWhile jsWhitespace = posEncode G E B S from
    dropWhile_head_false jsWhitespace '0' _ (by decide)]
  rw [show posEncode G E B S =
    (['0', '1'] ++ G ++ ['1', '7'] ++ E ++ ['1', '0'] ++ B ++ [gsChar] ++ ['2']) ++
      '1' :: S from by simp [posEncode, List.append_assoc]]
  rw [rdropWhile_append_cons jsWhitespace _ S '1' (by decide)]
  rw [show (['0', '1'] ++ G ++ ['1', '7'] ++ E ++ ['1', '0'] ++ B ++ [gsChar] ++ ['2']) ++
      '1' :: rdropWhile jsWhitespace S =
    posEncode G E B (rdropWhile jsWhitespace S) from by
      simp [posEncode, List.append_assoc]]
  apply stripCRLFTab_eq_self
  have h1 : ∀ c ∈ (['0', '1'] : List Char),
      c ≠ '\r' ∧ c ≠ '\n' ∧ c ≠ '\t' := by decide
  have h2 : ∀ c ∈ (['1', '7'] : List Char),
      c ≠ '\r' ∧ c ≠ '\n' ∧ c ≠ '\t' := by decide
  have h3 : ∀ c ∈ (['1', '0'] : List Char),
      c ≠ '\r' ∧ c ≠ '\n' ∧ c ≠ '\t' := by decide
  have h4 : ∀ c ∈ (['2', '1'] : List Char),
      c ≠ '\r' ∧ c ≠ '\n' ∧ c ≠ '\t' := by decide
  have hgs : gsChar ≠ '\r' ∧ gsChar ≠ '\n' ∧ gsChar ≠ '\t' := by decide
  simp only [posEncode]
  exact noctl_append h1 (noctl_append (noctl_digits hG2) (noctl_append h2
    (noctl_append (noctl_digits hE2) (noctl_append h3
      (noctl_append (fun c hc => printable_ne_ctl (hB c hc))
        (noctl_cons hgs (noctl_append h4
          (fun c hc => printable_ne_ctl (hS c (mem_rdropWhile hc))))))))))

/-- A parenthesised encoding contains an opening parenthesis. -/
theorem hasParensB_parenEncode (G E B S2 : List Char) :
    hasParensB (parenEncode G E B S2) = true := by
  simp only [hasParensB, parenEncode, decide_eq_true_eq]
  exact List.mem_append_left _
    (show '(' ∈ (['(', '0', '1', ')'] : List Char) by decide)

/-- A positional encoding of clean values has no parenthesis. -/
theorem hasParensB_posEncode (G E B S2 : List Char)
    (hG2 : G.all Char.isDigit = true) (hE2 : E.all Char.isDigit = true)
    (hB : ∀ c ∈ B, c ≠ '(') (hS : ∀ c ∈ S2, c ≠ '(') :
    hasParensB (posEncode G E B S2) = false := by
  simp only [hasParensB, decide_eq_false_iff_not]
  intro hmem
  simp [posEncode, gsChar, List.mem_append, List.mem_cons] at hmem
  rcases hmem with h | h | h | h
  · exact no_paren_digits hG2 _ h rfl
  · exact no_paren_digits hE2 _ h rfl
  · exact hB _ h rfl
  · exact hS _ h rfl

-- ════════════════════════════════════════
-- Claim C2: evaluation of the two encodings
-- ════════════════════════════════════════

/-- Full evaluation of GS1.parse on a parenthesised encoding of clean
field values: the four groups are extracted, the expiry strings are
derived, batch and serial go through the printable filter and trim. -/
theorem gs1ParseL_parenEncode (G E B S : List Char)
    (hG1 : G.length = 14) (hG2 : G.all Char.isDigit = true)
    (hE1 : E.length = 6) (hE2 : E.all Char.isDigit = true)
    (hBp : ∀ c ∈ B, 0x20 ≤ c.toNat) (hBnp : ∀ c ∈ B, c ≠ '(')
    (hSp : ∀ c ∈ S, 0x20 ≤ c.toNat) (hSnp : ∀ c ∈ S, c ≠ '(') :
    gs1ParseL (parenEncode G E B S) =
      ⟨parenEncode G E B S, G, E, expISO E, expDisp E,
        clean20 B, clean20 (rdropWhile jsWhitespace S), 1, true⟩ := by
  have hclean := cleanInput_parenEncode G E B S hG2 hE2 hBp hSp
  have hS2np : ∀ c ∈ rdropWhile jsWhitespace S, c ≠ '(' :=
    fun c hc => hSnp c (mem_rdropWhile hc)
  have hne : parenEncode G E B S ≠ [] := fun h => List.noConfusion h
  have hscan01 : scanFixed '0' '1' 14
      (parenEncode G E B (rdropWhile jsWhitespace S)) = some G :=
    scanFixed_cons_match '0' '1' 14 G _ hG1 hG2
  have hscan17 : scanFixed '1' '7' 6
      (parenEncode G E B (rdropWhile jsWhitespace S)) = some E :=
    scanFixed17_shape G E _ hG2 hE1 hE2
  have hc20 : clean20 ([] : List Char) = [] := rfl
  simp only [gs1ParseL]
  rw [if_neg hne, hclean]
  rw [hasParensB_parenEncode]
  rw [if_neg (show ¬((true = false) ∧
      hasRawGS1B (parenEncode G E B (rdropWhile jsWhitespace S)) = false) from by simp)]
  rw [if_pos (show true = true from rfl)]
  rw [hscan01, hscan17]
  by_cases hBe : B = []
  · subst hBe
    rw [show scanVar '1' '0' (parenEncode G E [] (rdropWhile jsWhitespace S)) = none from
      scanVar10_empty G E _ hG2 hE2 hS2np]
    by_cases hSe : rdropWhile jsWhitespace S = []
    · rw [hSe]
      rw [show scanVar '2' '1' (parenEncode G E [] []) = none from
        scanVar21_empty G E [] hG2 hE2 (by simp)]
      simp [expiryUpd, hE1, emptyR, hc20]
    · rw [show scanVar '2' '1' (parenEncode G E [] (rdropWhile jsWhitespace S)) =
        some (rdropWhile jsWhitespace S) from
        scanVar21_shape G E [] _ hG2 hE2 (by simp) hS2np hSe]
      simp [expiryUpd, hE1, emptyR, hc20]
  · rw [show scanVar '1' '0' (parenEncode G E B (rdropWhile jsWhitespace S)) = some B from
      scanVar10_shape G E B _ hG2 hE2 hBnp hBe]
    by_cases hSe : rdropWhile jsWhitespace S = []
    · rw [hSe]
      rw [show scanVar '2' '1' (parenEncode G E B []) = none from
        scanVar21_empty G E B hG2 hE2 hBnp]
      simp [expiryUpd, hE1, emptyR, hc20]
    · rw [show scanVar '2' '1' (parenEncode G E B (rdropWhile jsWhitespace S)) =
        some (rdropWhile jsWhitespace S) from
        scanVar21_shape G E B _ hG2 hE2 hBnp hS2np hSe]
      simp [expiryUpd, hE1, emptyR]

/-- Full evaluation of GS1.parse on a positional encoding of clean
field values: the anchored GS1 test fires, the while loop walks the
groups and produces the same fields as the parenthesised path. -/
theorem gs1ParseL_posEncode (G E B S : List Char)
    (hG1 : G.length = 14) (hG2 : G.all Char.isDigit = true)
    (hE1 : E.length = 6) (hE2 : E.all Char.isDigit = true)
    (hBp : ∀ c ∈ B, 0x20 ≤ c.toNat) (hBnp : ∀ c ∈ B, c ≠ '(')
    (hSp : ∀ c ∈ S, 0x20 ≤ c.toNat) (hSnp : ∀ c ∈ S, c ≠ '(') :
    gs1ParseL (posEncode G E B S) =
      ⟨posEncode G E B S, G, E, expISO E, expDisp E,
        clean20 B, clean20 (rdropWhile jsWhitespace S), 1, true⟩ := by
  have hclean := cleanInput_posEncode G E B S hG2 hE2 hBp hSp
  have hS2np : ∀ c ∈ rdropWhile jsWhitespace S, c ≠ '(' :=
    fun c hc => hSnp c (mem_rdropWhile hc)
  have hS2gs : ∀ c ∈ rdropWhile jsWhitespace S, c ≠ gsChar :=
    fun c hc => printable_ne_gs (hSp c (mem_rdropWhile hc))
  have hBgs : ∀ c ∈ B, c ≠ gsChar := fun c hc => printable_ne_gs (hBp c hc)
  have hne : posEncode G E B S ≠ [] := fun h => List.noConfusion h
  have hhp : hasParensB (posEncode G E B (rdropWhile jsWhitespace S)) = false :=
    hasParensB_posEncode G E B _ hG2 hE2 hBnp hS2np
  have hhr : hasRawGS1B (posEncode G E B (rdropWhile jsWhitespace S)) = true :=
    hasRawGS1B_cons01 G _ hG1 hG2
  simp only [gs1ParseL]
  rw [if_neg hne, hclean]
  rw [if_neg (show ¬(hasParensB (posEncode G E B (rdropWhile jsWhitespace S)) = false ∧
      hasRawGS1B (posEncode G E B (rdropWhile jsWhitespace S)) = false) from by
    rw [hhr]; simp)]
  rw [if_neg (show ¬hasParensB (posEncode G E B (rdropWhile jsWhitespace S)) = true from by
    rw [hhp]; simp)]
  have hrun := posStep01 ((posEncode G E B (rdropWhile jsWhitespace S)).length)
    { emptyR (posEncode G E B S) with isGS1 := true } G E B (rdropWhile jsWhitespace S)
    hG1 hE1 hBgs hS2gs (by simp [posEncode]; omega)
  exact hrun.trans (by simp [expiryUpd, hE1, emptyR])

/-- Claim C2 counterexample: with batch value "(" the claim fails. The
parenthesised encoding extracts the 14 digit GTIN, but the positional
encoding of the same field values contains a parenthesis, so GS1.parse
sends it through the parenthesised regex path, where no group matches
and the gtin field stays empty. -/
theorem claim_C2_cex :
    (gs1ParseL (parenEncode "00012345678905".toList "260630".toList
      ['('] "SER99".toList)).gtin = "00012345678905".toList ∧
    (gs1ParseL (posEncode "00012345678905".toList "260630".toList
      ['('] "SER99".toList)).gtin = [] := by decide

/-- Claim C2, amended: for every combination of field values in which
the GTIN is 14 digits, the expiry is 6 digits, and batch and serial
hold only printable characters (code points at least the space) none of
which is an opening parenthesis, parsing the positional encoding with
0x1D group separators yields the same gtin, expiry, derived expiry
strings, batch, serial, quantity and GS1 flag as parsing the
parenthesised encoding of the same values; only the raw field keeps the
respective input. Batch and serial values outside that character set
break the equivalence. -/
theorem claim_C2 (G E B S : List Char)
    (hG1 : G.length = 14) (hG2 : G.all Char.isDigit = true)
    (hE1 : E.length = 6) (hE2 : E.all Char.isDigit = true)
    (hBp : ∀ c ∈ B, 0x20 ≤ c.toNat) (hBnp : ∀ c ∈ B, c ≠ '(')
    (hSp : ∀ c ∈ S, 0x20 ≤ c.toNat) (hSnp : ∀ c ∈ S, c ≠ '(') :
    (gs1ParseL (posEncode G E B S)).gtin = (gs1ParseL (parenEncode G E B S)).gtin ∧
    (gs1ParseL (posEncode G E B S)).expiry = (gs1ParseL (parenEncode G E B S)).expiry ∧
    (gs1ParseL (posEncode G E B S)).expiryISO =
      (gs1ParseL (parenEncode G E B S)).expiryISO ∧
    (gs1ParseL (posEncode G E B S)).expiryDisplay =
      (gs1ParseL (parenEncode G E B S)).expiryDisplay ∧
    (gs1ParseL (posEncode G E B S)).batch = (gs1ParseL (parenEncode G E B S)).batch ∧
    (gs1ParseL (posEncode G E B S)).serial = (gs1ParseL (parenEncode G E B S)).serial ∧
    (gs1ParseL (posEncode G E B S)).qty = (gs1ParseL (parenEncode G E B S)).qty ∧
    (gs1ParseL (posEncode G E B S)).isGS1 = (gs1ParseL (parenEncode G E B S)).isGS1 := by
  rw [gs1ParseL_posEncode G E B S hG1 hG2 hE1 hE2 hBp hBnp hSp hSnp,
    gs1ParseL_parenEncode G E B S hG1 hG2 hE1 hE2 hBp hBnp hSp hSnp]
  exact ⟨rfl, rfl, rfl, rfl, rfl, rfl, rfl, rfl⟩

/-- Claim C2 witness: the equivalence applied to the concrete fields of
the running example. -/
theorem claim_C2_witness :
    (gs1ParseL (posEncode "00012345678905".toList "260630".toList
      "BATCH1".toList "SER99".toList)).gtin =
    (gs1ParseL (parenEncode "00012345678905".toList "260630".toList
      "BATCH1".toList "SER99".toList)).gtin :=
  (claim_C2 "00012345678905".toList "260630".toList "BATCH1".toList "SER99".toList
    (by decide) (by decide) (by decide) (by decide)
    (by decide) (by decide) (by decide) (by decide)).1
